import Mathlib

/-!
# Verification of the photo-map build scripts

Shallow embedding of the coordinate-resolution pipeline of the `ardld/map`
build scripts (`build.mjs`, `build-locations.mjs`, and the exif/overrides
variant) together with proofs of the behavioural properties stated in the
repository specification.

JavaScript numbers that the pipeline merely copies around (latitudes,
longitudes) are modelled as exact decimal values `DecNum` (mantissa and
decimal-exponent), which represents every literal appearing in the source
and every terminating decimal. Strings are modelled as Lean `String`s;
JavaScript's `toLowerCase`/NFD normalisation is modelled for the ASCII
range plus the Romanian diacritics that the gazetteer keys are meant to
absorb.
-/

namespace PhotoMap

/-- Exact decimal number `m / 10 ^ e`, the model of the JavaScript number
values copied around by the pipeline (no arithmetic is ever performed on
them in the modelled code). -/
structure DecNum where
  m : Int
  e : Nat
deriving DecidableEq, Repr

/-- A `[lon, lat]` pair as stored in the gazetteer. -/
abbrev Coord := DecNum × DecNum

/-! ## String helpers (`build.mjs` lines 19–23) -/

/-- Model of ECMAScript `toLowerCase` restricted to ASCII letters and the
Romanian diacritic letters that occur in the photo names the gazetteer is
aimed at. -/
def jsLowerChar (c : Char) : Char :=
  if c = 'Ă' then 'ă' else if c = 'Â' then 'â' else if c = 'Î' then 'î'
  else if c = 'Ș' then 'ș' else if c = 'Ț' then 'ț'
  else if c = 'Ş' then 'ş' else if c = 'Ţ' then 'ţ'
  else c.toLower

/-- Model of NFD decomposition followed by stripping the combining marks
`̀-ͯ`, restricted to the Romanian diacritic letters: each such
letter decomposes into its base letter plus a combining mark, so after
stripping only the base letter remains.  Characters that are already
combining marks are removed; everything else is untouched. -/
def nfdStripChar (c : Char) : List Char :=
  if c = 'ă' ∨ c = 'â' then ['a']
  else if c = 'î' then ['i']
  else if c = 'ș' ∨ c = 'ş' then ['s']
  else if c = 'ț' ∨ c = 'ţ' then ['t']
  else if 0x300 ≤ c.toNat ∧ c.toNat ≤ 0x36f then []
  else [c]

/-- `norm` from `build.mjs` line 21:
`s => (s||"").toLowerCase().normalize("NFD").replace(/[̀-ͯ]/g,"")`. -/
def norm (s : String) : String :=
  ⟨(s.data.map jsLowerChar).flatMap nfdStripChar⟩

/-- Boolean contiguous-substring test: `hasSubstr t k` is `true` exactly
when `k` occurs as a contiguous run inside `t`. -/
def hasSubstr : List Char → List Char → Bool
  | [], k => k.isEmpty
  | c :: t', k => k.isPrefixOf (c :: t') || hasSubstr t' k

/-- JavaScript `t.includes(k)`: `k` is a contiguous substring of `t`. -/
def jsIncludes (t k : String) : Bool :=
  hasSubstr t.data k.data

/-- `IMAGE_EXTS` from `build.mjs` line 19. -/
def IMAGE_EXTS : List String :=
  [".jpg", ".jpeg", ".png", ".webp", ".tif", ".tiff", ".heic", ".heif"]

/-- JavaScript `s.endsWith(suffix)`. -/
def jsEndsWith (s suffix : String) : Bool :=
  suffix.data.isSuffixOf s.data

/-- JavaScript `s.toLowerCase()` at the level of whole strings. -/
def jsToLower (s : String) : String :=
  ⟨s.data.map jsLowerChar⟩

/-- `isImage` from `build.mjs` line 20:
`n => IMAGE_EXTS.some(ext => (n||"").toLowerCase().endsWith(ext))`. -/
def isImage (n : String) : Bool :=
  IMAGE_EXTS.any fun ext => jsEndsWith (jsToLower n) ext

/-- JavaScript `String(s||"").replace(/</g,"&lt;").replace(/>/g,"&gt;")`
(`esc`, `build.mjs` line 23). -/
def esc (s : String) : String :=
  ⟨s.data.flatMap fun c =>
    if c = '<' then "&lt;".data else if c = '>' then "&gt;".data else [c]⟩

/-! ## The gazetteer (`build.mjs` lines 26–38)

The object literal `GAZ`, as an association list in insertion order;
`Object.keys` enumerates string keys in insertion order. -/

def GAZ : List (String × Coord) :=
  [ ("breb", (⟨239049, 4⟩, ⟨477485, 4⟩))
  , ("barsana", (⟨240425, 4⟩, ⟨477367, 4⟩))
  , ("bethlen cris", (⟨24671, 3⟩, ⟨461932, 4⟩))
  , ("cris", (⟨24671, 3⟩, ⟨461932, 4⟩))
  , ("brateiu", (⟨243826, 4⟩, ⟨461491, 4⟩))
  , ("bistrita", (⟨245, 1⟩, ⟨47133, 3⟩))
  , ("bnr", (⟨260986, 4⟩, ⟨444305, 4⟩))
  , ("ateneu", (⟨26098, 3⟩, ⟨444412, 4⟩))
  , ("cheile bicazului", (⟨258241, 4⟩, ⟨468121, 4⟩))
  , ("bicaz", (⟨260901, 4⟩, ⟨469133, 4⟩))
  , ("bigar", (⟨223514, 4⟩, ⟨450039, 4⟩))
  , ("praid", (⟨251358, 4⟩, ⟨465534, 4⟩))
  , ("sasca", (⟨217577, 4⟩, ⟨448803, 4⟩))
  , ("sucevita", (⟨257206, 4⟩, ⟨477814, 4⟩))
  , ("sapanta", (⟨236932, 4⟩, ⟨479682, 4⟩))
  , ("viscri", (⟨250918, 4⟩, ⟨460558, 4⟩))
  , ("tihuta", (⟨248058, 4⟩, ⟨473147, 4⟩))
  , ("bazias", (⟨2143, 2⟩, ⟨44784, 3⟩))
  , ("vodita", (⟨22416, 3⟩, ⟨44673, 3⟩))
  , ("zimbri hateg", (⟨229538, 4⟩, ⟨456117, 4⟩))
  , ("vanatori neamt", (⟨26234, 3⟩, ⟨47219, 3⟩))
  , ("lazarea", (⟨255169, 4⟩, ⟨46777, 3⟩))
  , ("enisala", (⟨288382, 4⟩, ⟨448864, 4⟩))
  , ("feldioara", (⟨255862, 4⟩, ⟨458282, 4⟩))
  , ("poienile izei", (⟨24116, 3⟩, ⟨47694, 3⟩))
  , ("oravita", (⟨216911, 4⟩, ⟨450391, 4⟩))
  , ("anina", (⟨218583, 4⟩, ⟨450839, 4⟩))
  , ("capidava", (⟨2808, 2⟩, ⟨4451, 2⟩))
  , ("cernavoda", (⟨280333, 4⟩, ⟨443333, 4⟩))
  , ("harsova", (⟨279533, 4⟩, ⟨446833, 4⟩))
  , ("rasova", (⟨279344, 4⟩, ⟨442458, 4⟩))
  , ("seimeni", (⟨280713, 4⟩, ⟨443932, 4⟩))
  , ("izvoarele", (⟨28165, 3⟩, ⟨44392, 3⟩))
  , ("topalu", (⟨28011, 3⟩, ⟨44531, 3⟩))
  , ("ogra", (⟨24289, 3⟩, ⟨46464, 3⟩))
  , ("haller", (⟨24289, 3⟩, ⟨46464, 3⟩))
  , ("dupus", (⟨242164, 4⟩, ⟨462178, 4⟩))
  ]

/-- The property access `GAZ[k]` for a string key `k`. -/
def gazFind (k : String) : Option Coord :=
  (GAZ.find? fun p => p.1 == k).map Prod.snd

/-- Ordering used by the comparator `(a,b) => b.length - a.length`:
`a` may be placed before `b` exactly when the comparator is `≤ 0`. -/
def lenGE (a b : String) : Prop := b.length ≤ a.length

instance : DecidableRel lenGE := fun a b => Nat.decLe b.length a.length

instance : IsTotal String lenGE := ⟨fun a b => le_total b.length a.length⟩

instance : IsTrans String lenGE := ⟨fun _ _ _ h1 h2 => le_trans h2 h1⟩

/-- `guessFromFilename` from `build.mjs` lines 40–44.
ECMAScript `Array.prototype.sort` is stable and, with the comparator
`(a,b) => b.length - a.length`, produces the unique stable descending-
by-length reordering; `List.insertionSort lenGE` computes exactly that
reordering, so it is a faithful embedding of the sort. -/
def guessFromFilename (name : String) : Option Coord :=
  let t := norm name
  let keys := ((GAZ.map Prod.fst).filter fun k => jsIncludes t k).insertionSort lenGE
  match keys with
  | [] => none
  | k :: _ => gazFind k

end PhotoMap

namespace PhotoMap

/-! ## Properties of the gazetteer lookup -/

lemma insertionSort_head_max {l : List String} {k : String} {rest : List String}
    (h : l.insertionSort lenGE = k :: rest) : ∀ x ∈ l, x.length ≤ k.length := by
  have hs : List.Sorted lenGE (l.insertionSort lenGE) := List.sorted_insertionSort lenGE l
  have hp : List.Perm (l.insertionSort lenGE) l := List.perm_insertionSort lenGE l
  intro x hx
  have hx' : x ∈ k :: rest := h ▸ (hp.mem_iff.mpr hx)
  rcases List.mem_cons.mp hx' with rfl | hxr
  · exact le_refl _
  · rw [h] at hs
    exact (List.sorted_cons.mp hs).1 x hxr

lemma gazFind_isSome {k : String} (hk : k ∈ GAZ.map Prod.fst) :
    (gazFind k).isSome := by
  rcases List.mem_map.mp hk with ⟨p, hp, rfl⟩
  have : (GAZ.find? fun q => q.1 == p.1).isSome :=
    List.find?_isSome.mpr ⟨p, hp, by simp⟩
  simpa [gazFind] using this

end PhotoMap

namespace PhotoMap

lemma guessFromFilename_eq (name : String) :
    guessFromFilename name =
      match ((GAZ.map Prod.fst).filter fun k => jsIncludes (norm name) k).insertionSort lenGE with
      | [] => none
      | k :: _ => gazFind k := rfl

/-- **C1.** For every input filename, `guessFromFilename` returns the
coordinate pair of a longest gazetteer key that is a substring of the
normalized (lowercased, diacritic-stripped) filename, and returns `null`
exactly when no key is a substring; in particular a filename containing
both `"bicaz"` and `"cheile bicazului"` resolves to the
`"cheile bicazului"` coordinates. -/
theorem C1_longest_gazetteer_match :
    (∀ name c, guessFromFilename name = some c →
      ∃ k, k ∈ GAZ.map Prod.fst ∧ jsIncludes (norm name) k = true ∧ gazFind k = some c ∧
        ∀ k' ∈ GAZ.map Prod.fst, jsIncludes (norm name) k' = true → k'.length ≤ k.length) ∧
    (∀ name, guessFromFilename name = none ↔
      ∀ k ∈ GAZ.map Prod.fst, jsIncludes (norm name) k = false) ∧
    guessFromFilename "Cheile Bicazului vara.jpg" = some (⟨258241, 4⟩, ⟨468121, 4⟩) ∧
    jsIncludes (norm "Cheile Bicazului vara.jpg") "bicaz" = true ∧
    jsIncludes (norm "Cheile Bicazului vara.jpg") "cheile bicazului" = true := by
  refine ⟨?_, ?_, by decide, of_decide_eq_true rfl, by decide⟩
  · intro name c hg
    rw [guessFromFilename_eq] at hg
    rcases hE : ((GAZ.map Prod.fst).filter fun k => jsIncludes (norm name) k).insertionSort lenGE
      with _ | ⟨k, rest⟩
    · rw [hE] at hg; exact absurd hg (by simp)
    · rw [hE] at hg
      have hperm := List.perm_insertionSort lenGE
        ((GAZ.map Prod.fst).filter fun k => jsIncludes (norm name) k)
      have hkmem : k ∈ (GAZ.map Prod.fst).filter fun k => jsIncludes (norm name) k :=
        hperm.subset (hE ▸ List.mem_cons_self k rest)
      have hk1 : k ∈ GAZ.map Prod.fst := List.mem_of_mem_filter hkmem
      have hk2 : jsIncludes (norm name) k = true := List.of_mem_filter hkmem
      refine ⟨k, hk1, hk2, hg, ?_⟩
      intro k' hk' hinc
      exact insertionSort_head_max hE k' (List.mem_filter.mpr ⟨hk', hinc⟩)
  · intro name
    rw [guessFromFilename_eq]
    rcases hE : ((GAZ.map Prod.fst).filter fun k => jsIncludes (norm name) k).insertionSort lenGE
      with _ | ⟨k, rest⟩
    · simp only [hE]
      constructor
      · intro _ k hk
        have hfilter : ((GAZ.map Prod.fst).filter fun k => jsIncludes (norm name) k) = [] :=
          (List.perm_insertionSort lenGE _).symm.trans (hE ▸ List.Perm.refl _) |>.eq_nil
        by_contra hne
        have : k ∈ (GAZ.map Prod.fst).filter fun k => jsIncludes (norm name) k :=
          List.mem_filter.mpr ⟨hk, by simpa using hne⟩
        rw [hfilter] at this
        exact absurd this (List.not_mem_nil k)
      · intro _; trivial
    · simp only [hE]
      constructor
      · intro hsome
        have := gazFind_isSome (k := k) ?_
        · rw [hsome] at this; exact absurd this (by simp)
        · have hkmem : k ∈ (GAZ.map Prod.fst).filter fun k => jsIncludes (norm name) k :=
            (List.perm_insertionSort lenGE _).subset (hE ▸ List.mem_cons_self k rest)
          exact List.mem_of_mem_filter hkmem
      · intro hall
        have hkmem : k ∈ (GAZ.map Prod.fst).filter fun k => jsIncludes (norm name) k :=
          (List.perm_insertionSort lenGE _).subset (hE ▸ List.mem_cons_self k rest)
        have hk1 : k ∈ GAZ.map Prod.fst := List.mem_of_mem_filter hkmem
        have hk2 : jsIncludes (norm name) k = true := List.of_mem_filter hkmem
        rw [hall k hk1] at hk2
        exact absurd hk2 (by simp)

/-- Witness for C1: the first conjunct applied at the concrete filename
`"Breb.jpg"`, whose normalized form contains the key `"breb"`. -/
theorem C1_witness :
    ∃ k, k ∈ GAZ.map Prod.fst ∧ jsIncludes (norm "Breb.jpg") k = true ∧
      gazFind k = some (⟨239049, 4⟩, ⟨477485, 4⟩) ∧
      ∀ k' ∈ GAZ.map Prod.fst, jsIncludes (norm "Breb.jpg") k' = true →
        k'.length ≤ k.length :=
  C1_longest_gazetteer_match.1 "Breb.jpg" (⟨239049, 4⟩, ⟨477485, 4⟩) (by decide)

end PhotoMap

namespace PhotoMap

/-! ## The listing record model

Fields of a Dropbox listing entry that the build scripts read.  The
`".tag"` discriminator is compared against string literals in the source,
so it is modelled as a string. -/

/-- `media.location` with its optional numeric fields. -/
structure MediaLocation where
  latitude : Option DecNum
  longitude : Option DecNum
deriving DecidableEq, Repr

/-- `media_info.metadata`: optional location plus `time_taken`. -/
structure MediaMetadata where
  location : Option MediaLocation
  time_taken : Option String
deriving DecidableEq, Repr

/-- `f.media_info`, whose `metadata` field may itself be absent. -/
structure MediaInfo where
  metadata : Option MediaMetadata
deriving DecidableEq, Repr

/-- One listing entry. -/
structure Entry where
  tag : String
  name : String
  path_lower : String
  path_display : String
  id : Option String
  media_info : Option MediaInfo
deriving DecidableEq, Repr

/-- JavaScript `a || b` for a nullable string `a`: the empty string is
falsy, so it falls through to `b` exactly like `null` does. -/
def jsOrStr (a b : Option String) : Option String :=
  match a with
  | some s => if s = "" then b else some s
  | none => b

/-- JavaScript truthiness of a nullable string (`null` and `""` falsy). -/
def jsTruthyStr : Option String → Bool
  | some s => s ≠ ""
  | none => false

end PhotoMap

namespace PhotoMap.Build1

/-! ## The `build.mjs` main-loop variant (gazetteer + optional Nominatim)

Embedding of the per-record body at `build.mjs` lines 363–439.  All
external interactions of one record are collected in an `Oracle` value:
the world's answers to the network calls the body makes. -/

/-- Per-record external-world outcomes. -/
structure Oracle where
  /-- Parsed first Nominatim hit `[lon, lat]`; `none` models a non-ok
  response, an empty result array, or a thrown fetch (all are caught by
  the inner `try`/`catch` and leave the coordinates untouched). -/
  nomResult : Option (DecNum × DecNum)
  /-- `filePageAndRaw` result (that helper catches its own errors). -/
  pageUrl : Option String
  rawUrl : Option String
  /-- strategy-A thumbnail block (fetch + write) succeeds -/
  thumbA : Bool
  /-- strategy-B thumbnail block (fetch + write) succeeds -/
  thumbB : Bool
deriving DecidableEq, Repr

/-- The mutable per-record resolution variables
`let lon=null, lat=null, when=null, source=null`. -/
structure RState where
  lon : Option DecNum
  lat : Option DecNum
  when : Option String
  source : Option String
deriving DecidableEq, Repr

/-- Step 1 (`build.mjs` lines 367–374): GPS via `media_info`. -/
def mediaStep (f : Entry) : RState :=
  match f.media_info.bind (·.metadata) with
  | some media =>
    match media.location with
    | some loc =>
      { lon := loc.longitude, lat := loc.latitude,
        when := jsOrStr media.time_taken none,
        source := if loc.latitude ≠ none ∧ loc.longitude ≠ none
                  then some "media_info" else none }
    | none => ⟨none, none, none, none⟩
  | none => ⟨none, none, none, none⟩

/-- Step 2 (`build.mjs` lines 377–380): filename guess, attempted only
when a coordinate is still null. -/
def guessStep (f : Entry) (s : RState) : RState :=
  if s.lat = none ∨ s.lon = none then
    match guessFromFilename f.name with
    | some g => { s with lon := some g.1, lat := some g.2,
                         source := jsOrStr s.source (some "filename") }
    | none => s
  else s

/-- Step 3 (`build.mjs` lines 383–393): optional Nominatim lookup,
attempted only when a coordinate is still null and the flag is set. -/
def nomStep (enableNominatim : Bool) (nomResult : Option (DecNum × DecNum))
    (s : RState) : RState :=
  if (s.lat = none ∨ s.lon = none) ∧ enableNominatim then
    match nomResult with
    | some g => { s with lon := some g.1, lat := some g.2,
                         source := jsOrStr s.source (some "nominatim") }
    | none => s
  else s

/-- The three-step fallback chain, as run just before the skip check at
`build.mjs` line 395. -/
def resolve (enableNominatim : Bool) (o : Oracle) (f : Entry) : RState :=
  nomStep enableNominatim o.nomResult (guessStep f (mediaStep f))

/-- The thumbnail filename `"t-" + md5(key) + ".jpg"`
(`build.mjs` lines 404 and 412). -/
def thumbName (md5 : String → String) (key : String) : String :=
  "t-" ++ md5 key ++ ".jpg"

/-- The local-thumbnail part of the body (`build.mjs` lines 400–417):
strategy A by `path_lower`, then strategy B by file id. -/
def thumbRel (md5 : String → String) (o : Oracle) (f : Entry) : Option String :=
  let a := if o.thumbA then some ("thumbs/" ++ thumbName md5 f.path_lower) else none
  match a with
  | some r => some r
  | none =>
    match f.id with
    | some fid =>
      if fid ≠ "" ∧ o.thumbB then some ("thumbs/" ++ thumbName md5 fid) else none
    | none => none

/-- The emitted feature (`build.mjs` lines 423–435). -/
structure Feature where
  title : String
  taken_at : Option String
  source : Option String
  original_page : Option String
  thumb : Option String
  thumb_external : Option String
  full_external : Option String
  lon : DecNum
  lat : DecNum
deriving DecidableEq, Repr

/-- The whole per-record body: `some feature` when a feature is pushed,
`none` when the record is skipped at line 395. -/
def processEntry (md5 : String → String) (enableNominatim : Bool)
    (o : Oracle) (f : Entry) : Option Feature :=
  let s := resolve enableNominatim o f
  match s.lat, s.lon with
  | some la, some lo =>
    let tr := thumbRel md5 o f
    let text := if tr = none ∧ jsTruthyStr o.rawUrl then o.rawUrl else none
    some { title := esc f.name, taken_at := s.when, source := s.source,
           original_page := o.pageUrl, thumb := tr, thumb_external := text,
           full_external := o.rawUrl, lon := lo, lat := la }
  | _, _ => none

/-- The `for (const f of entries)` loop (`build.mjs` lines 363–440):
features are pushed in listing order, every non-pushed record bumps
`skipped` by one. -/
def mainLoop (md5 : String → String) (enableNominatim : Bool) :
    List (Entry × Oracle) → List Feature × Nat
  | [] => ([], 0)
  | (f, o) :: rest =>
    let r := mainLoop md5 enableNominatim rest
    match processEntry md5 enableNominatim o f with
    | some ft => (ft :: r.1, r.2)
    | none => (r.1, r.2 + 1)

end PhotoMap.Build1

namespace PhotoMap

instance {ε α : Type} [DecidableEq ε] [DecidableEq α] : DecidableEq (Except ε α) := fun a b =>
  match a, b with
  | .error e, .error e' => decidable_of_iff (e = e') (by simp)
  | .ok x, .ok y => decidable_of_iff (x = y) (by simp)
  | .error _, .ok _ => .isFalse (by simp)
  | .ok _, .error _ => .isFalse (by simp)

end PhotoMap

namespace PhotoMap.Part0

/-! ## The exif/overrides/Jimp variant (`src/unnamed/part_000`)

Embedding of the per-record body at lines 144–211.  External calls that
the body makes without an inner `try` (`getPerFileSharedLink`,
`fetchBytes`, `geocodeName`, the Jimp thumbnail pipeline) may throw;
their outcomes are `Except` values in the per-record `Oracle`, and a
thrown value reaches the record-level `catch`. -/

/-- Result triple of `getExifGPS` when tags are present
(lines 52–62): `GPSLatitude`, `GPSLongitude`, and the first non-null of
`DateTimeOriginal || CreateDate || ModifyDate || null`. -/
structure ExifGPS where
  lat : DecNum
  lon : DecNum
  when : Option String
deriving DecidableEq, Repr

/-- One override-table value; `some` models a field that is present with
`typeof ... === "number"`. -/
structure Override where
  lat : Option DecNum
  lon : Option DecNum
deriving DecidableEq, Repr

/-- Per-record external-world outcomes. -/
structure Oracle where
  /-- `getPerFileSharedLink` (lines 37–43): throws, or returns the raw URL. -/
  sharedLink : Except Unit String
  /-- `fetchBytes` (lines 45–50): throws on a non-ok response. -/
  fetchOk : Except Unit Unit
  /-- What reading the EXIF tags of the fetched bytes yields; the
  function's inner `try`/`catch` means it never throws. -/
  exif : Option ExifGPS
  /-- `geocodeName` (lines 64–73): the fetch may throw; a non-ok response
  or empty result array yields `null`. -/
  geocode : Except Unit (Option (DecNum × DecNum))
  /-- the Jimp read/resize/write pipeline (lines 189–193) succeeds -/
  jimpOk : Except Unit Unit
deriving DecidableEq, Repr

/-- `getExifGPS` entry guard (line 53): `DISABLE_EXIF` short-circuits to
`null`. -/
def getExifGPS (disableExif : Bool) (exifData : Option ExifGPS) : Option ExifGPS :=
  if disableExif then none else exifData

/-- The mutable per-record variables `let lat = null, lon = null, when = null`. -/
structure PState where
  lat : Option DecNum
  lon : Option DecNum
  when : Option String
deriving DecidableEq, Repr

/-- Lines 149–154: coordinates and time from the listing's `media_info`. -/
def mediaStep (f : Entry) : PState :=
  match f.media_info.bind (·.metadata) with
  | some media =>
    match media.location with
    | some loc =>
      { lat := loc.latitude, lon := loc.longitude,
        when := jsOrStr media.time_taken none }
    | none => ⟨none, none, none⟩
  | none => ⟨none, none, none⟩

/-- Lines 161–166: EXIF fallback, attempted only when a coordinate is
still null; `when = when || exif.when`. -/
def exifStep (disableExif : Bool) (exifData : Option ExifGPS) (s : PState) : PState :=
  if s.lat = none ∨ s.lon = none then
    match getExifGPS disableExif exifData with
    | some ex => { lat := some ex.lat, lon := some ex.lon,
                   when := jsOrStr s.when ex.when }
    | none => s
  else s

/-- Lines 168–172: the manual override, keyed by the exact display path;
it replaces the coordinates unconditionally when both fields are numeric
and leaves `when` untouched. -/
def overrideStep (overrides : List (String × Override)) (f : Entry) (s : PState) : PState :=
  match (overrides.find? fun p => p.1 == f.path_display).map Prod.snd with
  | some ov =>
    match ov.lat, ov.lon with
    | some a, some b => { s with lat := some a, lon := some b }
    | _, _ => s
  | none => s

/-- Lines 146–178 of the body: everything up to (and excluding) the skip
check, returning the final resolution state together with the raw URL
obtained for the record.  A thrown external call surfaces as `.error`. -/
def resolveCoords (disableExif enableFilenameGeocode : Bool)
    (overrides : List (String × Override)) (o : Oracle) (f : Entry) :
    Except Unit (PState × String) :=
  let s0 := mediaStep f
  match o.sharedLink with
  | .error e => .error e
  | .ok rawUrl =>
    match o.fetchOk with
    | .error e => .error e
    | .ok _ =>
      let s1 := exifStep disableExif o.exif s0
      let s2 := overrideStep overrides f s1
      if (s2.lat = none ∨ s2.lon = none) ∧ enableFilenameGeocode then
        match o.geocode with
        | .error e => .error e
        | .ok g =>
          match g with
          | some guess => .ok ({ s2 with lat := some guess.1, lon := some guess.2 }, rawUrl)
          | none => .ok (s2, rawUrl)
      else .ok (s2, rawUrl)

/-- `n.replace(/\.[^.]+$/, "")`: strip a final dot-extension when one is
present. -/
def stripExt (n : String) : String :=
  let r := n.data.reverse
  let ext := r.takeWhile fun c => c ≠ '.'
  if 0 < ext.length ∧ ext.length < r.length then ⟨(r.drop (ext.length + 1)).reverse⟩
  else n

/-- Characters kept verbatim by `safeFileName`'s character class
`[a-z0-9._-]`. -/
def isSafeChar (c : Char) : Bool :=
  ('a' ≤ c ∧ c ≤ 'z') ∨ ('0' ≤ c ∧ c ≤ '9') ∨ c = '.' ∨ c = '_' ∨ c = '-'

/-- `replace(/[^a-z0-9._-]+/g, "-")`: each maximal run of characters
outside the class becomes a single dash.  The flag records whether the
previous character was part of such a run. -/
def collapseBad : Bool → List Char → List Char
  | _, [] => []
  | prevBad, c :: cs =>
    if isSafeChar c then c :: collapseBad false cs
    else if prevBad then collapseBad true cs
    else '-' :: collapseBad true cs

/-- `replace(/^-+|-+$/g, "")`: trim leading and trailing dashes. -/
def trimDashes (cs : List Char) : List Char :=
  ((cs.dropWhile fun c => c = '-').reverse.dropWhile fun c => c = '-').reverse

/-- `safeFileName` (lines 127–129). -/
def safeFileName (n : String) : String :=
  ⟨trimDashes (collapseBad false (jsToLower n).data)⟩

/-- The thumbnail filename of line 186:
`safeFileName(f.name.replace(/\.[^.]+$/, "")) + ".jpg"`. -/
def thumbName (f : Entry) : String :=
  safeFileName (stripExt f.name) ++ ".jpg"

/-- The emitted feature (lines 195–205). -/
structure Feature where
  title : String
  dropbox_path : String
  url : String
  original : String
  taken_at : Option String
  lon : DecNum
  lat : DecNum
deriving DecidableEq, Repr

/-- The whole `try` body of one record: `.error` when an external call
throws, `.ok none` when the record is skipped at line 180, `.ok (some _)`
when a feature is pushed. -/
def body (disableExif enableFilenameGeocode : Bool)
    (overrides : List (String × Override)) (o : Oracle) (f : Entry) :
    Except Unit (Option Feature) :=
  match resolveCoords disableExif enableFilenameGeocode overrides o f with
  | .error e => .error e
  | .ok (s, rawUrl) =>
    match s.lat, s.lon with
    | some la, some lo =>
      match o.jimpOk with
      | .error e => .error e
      | .ok _ =>
        .ok (some { title := f.name, dropbox_path := f.path_display,
                    url := "/thumbs/" ++ thumbName f, original := rawUrl,
                    taken_at := s.when, lon := lo, lat := la })
    | _, _ => .ok none

/-- One record of the main loop: the record-level `catch` (lines 207–210)
turns a thrown body into a skip. -/
def processEntry (disableExif enableFilenameGeocode : Bool)
    (overrides : List (String × Override)) (o : Oracle) (f : Entry) :
    Option Feature :=
  match body disableExif enableFilenameGeocode overrides o f with
  | .ok r => r
  | .error _ => none

/-- The `for (const f of entries)` loop (lines 144–211). -/
def mainLoop (disableExif enableFilenameGeocode : Bool)
    (overrides : List (String × Override)) :
    List (Entry × Oracle) → List Feature × Nat
  | [] => ([], 0)
  | (f, o) :: rest =>
    let r := mainLoop disableExif enableFilenameGeocode overrides rest
    match processEntry disableExif enableFilenameGeocode overrides o f with
    | some ft => (ft :: r.1, r.2)
    | none => (r.1, r.2 + 1)

end PhotoMap.Part0

namespace PhotoMap.Build2

/-! ## The exif/overrides variant inside `build.mjs` (lines 968–1041)

Same resolution chain as `part_000` except that the byte download only
happens inside the "coordinates still missing" guard (lines 989–995). -/

/-- Per-record external-world outcomes. -/
structure Oracle where
  /-- `downloadViaSharedLink` (lines 887–891): may throw. -/
  download : Except Unit Unit
  /-- `getExifGPS` outcome on the downloaded bytes (never throws). -/
  exif : Option Part0.ExifGPS
  /-- `geocodeName`: may throw, or return `null`/a hit. -/
  geocode : Except Unit (Option (DecNum × DecNum))
deriving DecidableEq, Repr

/-- Lines 980–995: the `media_info` step followed by the guarded
download-and-EXIF fallback (the download only happens when a coordinate
is still missing, and may throw). -/
def exifPhase (disableExif : Bool) (o : Oracle) (f : Entry) :
    Except Unit Part0.PState :=
  let s0 := Part0.mediaStep f
  if s0.lat = none ∨ s0.lon = none then
    match o.download with
    | .error e => .error e
    | .ok _ =>
      match Part0.getExifGPS disableExif o.exif with
      | some ex => .ok { lat := some ex.lat, lon := some ex.lon,
                         when := jsOrStr s0.when ex.when }
      | none => .ok s0
  else .ok s0

/-- Lines 980–1010 of the body: the resolution chain up to (and
excluding) the skip check. -/
def resolveCoords (disableExif enableFilenameGeocode : Bool)
    (overrides : List (String × Part0.Override)) (o : Oracle) (f : Entry) :
    Except Unit Part0.PState :=
  match exifPhase disableExif o f with
  | .error e => .error e
  | .ok s1 =>
    let s2 := Part0.overrideStep overrides f s1
    if (s2.lat = none ∨ s2.lon = none) ∧ enableFilenameGeocode then
      match o.geocode with
      | .error e => .error e
      | .ok g =>
        match g with
        | some guess => .ok { s2 with lat := some guess.1, lon := some guess.2 }
        | none => .ok s2
    else .ok s2

end PhotoMap.Build2

namespace PhotoMap

/-- The override step either leaves the state untouched or replaces both
coordinates with the numeric override values, never touching `when`. -/
lemma overrideStep_cases (ov : List (String × Part0.Override)) (f : Entry)
    (s : Part0.PState) :
    Part0.overrideStep ov f s = s ∨
    ∃ a b, Part0.overrideStep ov f s = { lat := some a, lon := some b, when := s.when } := by
  unfold Part0.overrideStep
  split
  · split
    · next a b _ _ => exact Or.inr ⟨a, b, rfl⟩
    · exact Or.inl rfl
  · exact Or.inl rfl

/-- Non-nullness of coordinates survives the override step. -/
lemma overrideStep_keeps_coords (ov : List (String × Part0.Override)) (f : Entry)
    (s : Part0.PState) :
    (s.lat ≠ none → (Part0.overrideStep ov f s).lat ≠ none) ∧
    (s.lon ≠ none → (Part0.overrideStep ov f s).lon ≠ none) := by
  rcases overrideStep_cases ov f s with h | ⟨a, b, h⟩ <;> rw [h] <;> simp

/-- If the embedded metadata already yields both coordinates, the EXIF
fallback of `part_000` is skipped and the state is unchanged. -/
lemma exifStep_skipped (dis : Bool) (e : Option Part0.ExifGPS) (s : Part0.PState)
    (h1 : s.lat ≠ none) (h2 : s.lon ≠ none) :
    Part0.exifStep dis e s = s := by
  unfold Part0.exifStep
  rw [if_neg]
  simp [h1, h2]

/-- **C2.** An override-table entry with numeric `lat` and `lon`, looked
up by the record's exact display path, dictates the resolved coordinate
even when embedded metadata (or EXIF) already supplied one, and leaves
the capture timestamp collected by the earlier steps untouched.  Stated
for both override-bearing variants (`part_000` and the exif variant in
`build.mjs`). -/
theorem C2_override_replaces_coords
    (disableExif enGeoP enGeoB : Bool) (overrides : List (String × Part0.Override))
    (oP : Part0.Oracle) (oB : Build2.Oracle) (f : Entry) (ov : Part0.Override)
    (a b : DecNum) (u : String) (s1 : Part0.PState)
    (hov : (overrides.find? fun p => p.1 == f.path_display).map Prod.snd = some ov)
    (ha : ov.lat = some a) (hb : ov.lon = some b)
    (hlink : oP.sharedLink = .ok u) (hfetch : oP.fetchOk = .ok ())
    (hex : Build2.exifPhase disableExif oB f = .ok s1) :
    Part0.resolveCoords disableExif enGeoP overrides oP f =
      .ok ({ lat := some a, lon := some b,
             when := (Part0.exifStep disableExif oP.exif (Part0.mediaStep f)).when }, u) ∧
    Build2.resolveCoords disableExif enGeoB overrides oB f =
      .ok { lat := some a, lon := some b, when := s1.when } ∧
    ((Part0.mediaStep f).lat ≠ none → (Part0.mediaStep f).lon ≠ none →
      (Part0.exifStep disableExif oP.exif (Part0.mediaStep f)).when =
        (Part0.mediaStep f).when) := by
  have hover : ∀ s : Part0.PState, Part0.overrideStep overrides f s =
      { lat := some a, lon := some b, when := s.when } := by
    intro s
    simp only [Part0.overrideStep, hov, ha, hb]
  refine And.intro ?_ (And.intro ?_ ?_)
  · simp only [Part0.resolveCoords, hlink, hfetch, hover]
    simp
  · simp only [Build2.resolveCoords, hex, hover]
    simp
  · intro h1 h2
    rw [exifStep_skipped disableExif oP.exif (Part0.mediaStep f) h1 h2]

end PhotoMap

namespace PhotoMap

/-- Witness for C2: a record with embedded coordinates `(1,1)` and an
override entry `(2,2)` for its exact display path resolves to `(2,2)`
with the embedded timestamp preserved, in both variants. -/
theorem C2_witness :
    Part0.resolveCoords false false
        [("/Photo.jpg", { lat := some ⟨2, 0⟩, lon := some ⟨2, 0⟩ })]
        { sharedLink := .ok "raw", fetchOk := .ok (), exif := none,
          geocode := .ok none, jimpOk := .ok () }
        { tag := "file", name := "Photo.jpg", path_lower := "/photo.jpg",
          path_display := "/Photo.jpg", id := none,
          media_info := some ⟨some ⟨some ⟨some ⟨1, 0⟩, some ⟨1, 0⟩⟩, some "2020-05-01"⟩⟩ } =
      .ok ({ lat := some ⟨2, 0⟩, lon := some ⟨2, 0⟩, when := some "2020-05-01" }, "raw") ∧
    Build2.resolveCoords false false
        [("/Photo.jpg", { lat := some ⟨2, 0⟩, lon := some ⟨2, 0⟩ })]
        { download := .ok (), exif := none, geocode := .ok none }
        { tag := "file", name := "Photo.jpg", path_lower := "/photo.jpg",
          path_display := "/Photo.jpg", id := none,
          media_info := some ⟨some ⟨some ⟨some ⟨1, 0⟩, some ⟨1, 0⟩⟩, some "2020-05-01"⟩⟩ } =
      .ok { lat := some ⟨2, 0⟩, lon := some ⟨2, 0⟩, when := some "2020-05-01" } := by
  have h := C2_override_replaces_coords false false false
    [("/Photo.jpg", { lat := some ⟨2, 0⟩, lon := some ⟨2, 0⟩ })]
    { sharedLink := .ok "raw", fetchOk := .ok (), exif := none,
      geocode := .ok none, jimpOk := .ok () }
    { download := .ok (), exif := none, geocode := .ok none }
    { tag := "file", name := "Photo.jpg", path_lower := "/photo.jpg",
      path_display := "/Photo.jpg", id := none,
      media_info := some ⟨some ⟨some ⟨some ⟨1, 0⟩, some ⟨1, 0⟩⟩, some "2020-05-01"⟩⟩ }
    { lat := some ⟨2, 0⟩, lon := some ⟨2, 0⟩ } ⟨2, 0⟩ ⟨2, 0⟩ "raw"
    { lat := some ⟨1, 0⟩, lon := some ⟨1, 0⟩, when := some "2020-05-01" }
    (by decide) (of_decide_eq_true rfl) (by decide) (of_decide_eq_true rfl)
    (by decide) (of_decide_eq_true rfl)
  exact ⟨h.1, h.2.1⟩

end PhotoMap

namespace PhotoMap

/-- **C3.** A record whose embedded metadata yields both a non-null
latitude and longitude never invokes the later fallback sources: in the
gazetteer variant the result is the embedded coordinate with source
`"media_info"` for every oracle (so it cannot depend on the geocoder),
and in `part_000` the result ignores the EXIF and geocoder oracles
entirely and equals the media state passed through the override step. -/
theorem C3_fallback_short_circuit
    (f : Entry) (m : MediaMetadata) (loc : MediaLocation) (la lo : DecNum)
    (hm : f.media_info.bind (·.metadata) = some m)
    (hl : m.location = some loc)
    (hla : loc.latitude = some la) (hlo : loc.longitude = some lo) :
    (∀ en o, Build1.resolve en o f =
       { lon := some lo, lat := some la, when := jsOrStr m.time_taken none,
         source := some "media_info" }) ∧
    (∀ dis en ov link fok e g j e' g' j',
       Part0.resolveCoords dis en ov ⟨link, fok, e, g, j⟩ f =
       Part0.resolveCoords dis en ov ⟨link, fok, e', g', j'⟩ f) ∧
    (∀ dis en ov (o : Part0.Oracle) u, o.sharedLink = .ok u → o.fetchOk = .ok () →
       Part0.resolveCoords dis en ov o f =
         .ok (Part0.overrideStep ov f (Part0.mediaStep f), u)) := by
  have hmedia1 : Build1.mediaStep f =
      { lon := some lo, lat := some la, when := jsOrStr m.time_taken none,
        source := some "media_info" } := by
    simp [Build1.mediaStep, hm, hl, hla, hlo]
  have hmediaP : Part0.mediaStep f =
      { lat := some la, lon := some lo, when := jsOrStr m.time_taken none } := by
    simp [Part0.mediaStep, hm, hl, hla, hlo]
  have hresP : ∀ dis en ov (o : Part0.Oracle) u, o.sharedLink = .ok u → o.fetchOk = .ok () →
      Part0.resolveCoords dis en ov o f =
        .ok (Part0.overrideStep ov f (Part0.mediaStep f), u) := by
    intro dis en ov o u hlink hfok
    have hskip : Part0.exifStep dis o.exif (Part0.mediaStep f) = Part0.mediaStep f :=
      exifStep_skipped dis o.exif (Part0.mediaStep f)
        (by rw [hmediaP]; simp) (by rw [hmediaP]; simp)
    have hcoords := overrideStep_keeps_coords ov f (Part0.mediaStep f)
    have hlat : (Part0.overrideStep ov f (Part0.mediaStep f)).lat ≠ none :=
      hcoords.1 (by rw [hmediaP]; simp)
    have hlon : (Part0.overrideStep ov f (Part0.mediaStep f)).lon ≠ none :=
      hcoords.2 (by rw [hmediaP]; simp)
    simp only [Part0.resolveCoords, hlink, hfok, hskip]
    rw [if_neg]
    simp [hlat, hlon]
  refine ⟨?_, ?_, hresP⟩
  · intro en o
    have hguess : Build1.guessStep f (Build1.mediaStep f) = Build1.mediaStep f := by
      unfold Build1.guessStep
      rw [if_neg]
      rw [hmedia1]
      simp
    unfold Build1.resolve
    rw [hguess]
    unfold Build1.nomStep
    rw [if_neg]
    · exact hmedia1
    · rw [hmedia1]; simp
  · intro dis en ov link fok e g j e' g' j'
    rcases hlink : link with _ | u
    · simp [Part0.resolveCoords, hlink]
    · rcases hfok : fok with _ | uu
      · simp [Part0.resolveCoords, hlink, hfok]
      · cases uu
        rw [hresP dis en ov ⟨.ok u, .ok (), e, g, j⟩ u rfl rfl,
            hresP dis en ov ⟨.ok u, .ok (), e', g', j'⟩ u rfl rfl]

/-- Witness for C3: a record with embedded coordinates resolves from
`media_info` alone, for an oracle whose geocoder component would throw. -/
theorem C3_witness :
    Build1.resolve true
      { nomResult := some (⟨9, 0⟩, ⟨9, 0⟩), pageUrl := none, rawUrl := none,
        thumbA := false, thumbB := false }
      { tag := "file", name := "x.jpg", path_lower := "/x.jpg",
        path_display := "/x.jpg", id := none,
        media_info := some ⟨some ⟨some ⟨some ⟨45, 0⟩, some ⟨25, 0⟩⟩, some "2021-07-01"⟩⟩ } =
      { lon := some ⟨25, 0⟩, lat := some ⟨45, 0⟩, when := some "2021-07-01",
        source := some "media_info" } ∧
    Part0.resolveCoords false true []
      { sharedLink := .ok "r", fetchOk := .ok (),
        exif := some ⟨⟨9, 0⟩, ⟨9, 0⟩, none⟩, geocode := .error (), jimpOk := .ok () }
      { tag := "file", name := "x.jpg", path_lower := "/x.jpg",
        path_display := "/x.jpg", id := none,
        media_info := some ⟨some ⟨some ⟨some ⟨45, 0⟩, some ⟨25, 0⟩⟩, some "2021-07-01"⟩⟩ } =
      .ok ({ lat := some ⟨45, 0⟩, lon := some ⟨25, 0⟩, when := some "2021-07-01" }, "r") := by
  have h := C3_fallback_short_circuit
    { tag := "file", name := "x.jpg", path_lower := "/x.jpg",
      path_display := "/x.jpg", id := none,
      media_info := some ⟨some ⟨some ⟨some ⟨45, 0⟩, some ⟨25, 0⟩⟩, some "2021-07-01"⟩⟩ }
    ⟨some ⟨some ⟨45, 0⟩, some ⟨25, 0⟩⟩, some "2021-07-01"⟩
    ⟨some ⟨45, 0⟩, some ⟨25, 0⟩⟩ ⟨45, 0⟩ ⟨25, 0⟩ rfl rfl rfl rfl
  refine ⟨h.1 true _, ?_⟩
  rw [h.2.2 false true []
    { sharedLink := .ok "r", fetchOk := .ok (),
      exif := some ⟨⟨9, 0⟩, ⟨9, 0⟩, none⟩, geocode := .error (), jimpOk := .ok () }
    "r" rfl rfl]
  decide

end PhotoMap

namespace PhotoMap

/-- **C4.** A record that still lacks a coordinate after the whole
fallback chain contributes no feature, bumps the skipped counter by
exactly one, and the loop goes on with the remaining records — in both
main-loop variants. -/
theorem C4_unresolved_record_skipped :
    (∀ md5 en (o : Build1.Oracle) f,
      ((Build1.resolve en o f).lat = none ∨ (Build1.resolve en o f).lon = none) →
      Build1.processEntry md5 en o f = none ∧
      ∀ rest, Build1.mainLoop md5 en ((f, o) :: rest) =
        ((Build1.mainLoop md5 en rest).1, (Build1.mainLoop md5 en rest).2 + 1)) ∧
    (∀ dis en ov (o : Part0.Oracle) f s u,
      Part0.resolveCoords dis en ov o f = .ok (s, u) →
      (s.lat = none ∨ s.lon = none) →
      Part0.processEntry dis en ov o f = none ∧
      ∀ rest, Part0.mainLoop dis en ov ((f, o) :: rest) =
        ((Part0.mainLoop dis en ov rest).1, (Part0.mainLoop dis en ov rest).2 + 1)) := by
  constructor
  · intro md5 en o f hnull
    have hp : Build1.processEntry md5 en o f = none := by
      unfold Build1.processEntry
      rcases hL : (Build1.resolve en o f).lat with _ | la
      · simp [hL]
      · rcases hO : (Build1.resolve en o f).lon with _ | lo
        · simp [hL, hO]
        · exfalso
          rcases hnull with h | h
          · rw [hL] at h; exact Option.noConfusion h
          · rw [hO] at h; exact Option.noConfusion h
    exact ⟨hp, fun rest => by simp [Build1.mainLoop, hp]⟩
  · intro dis en ov o f s u hres hnull
    have hp : Part0.processEntry dis en ov o f = none := by
      unfold Part0.processEntry Part0.body
      rw [hres]
      rcases hL : s.lat with _ | la
      · simp [hL]
      · rcases hO : s.lon with _ | lo
        · simp [hL, hO]
        · exfalso
          rcases hnull with h | h
          · rw [hL] at h; exact Option.noConfusion h
          · rw [hO] at h; exact Option.noConfusion h
    exact ⟨hp, fun rest => by simp [Part0.mainLoop, hp]⟩

/-- Witness for C4: a record with no metadata, no gazetteer match and the
geocoder disabled is dropped and counted once, in both variants. -/
theorem C4_witness :
    Build1.processEntry (fun s => s) false
      { nomResult := none, pageUrl := none, rawUrl := none,
        thumbA := false, thumbB := false }
      { tag := "file", name := "mystery.jpg", path_lower := "/mystery.jpg",
        path_display := "/mystery.jpg", id := none, media_info := none } = none ∧
    Build1.mainLoop (fun s => s) false
      [({ tag := "file", name := "mystery.jpg", path_lower := "/mystery.jpg",
          path_display := "/mystery.jpg", id := none, media_info := none },
        { nomResult := none, pageUrl := none, rawUrl := none,
          thumbA := false, thumbB := false })] = ([], 1) ∧
    Part0.processEntry false false []
      { sharedLink := .ok "r", fetchOk := .ok (), exif := none,
        geocode := .ok none, jimpOk := .ok () }
      { tag := "file", name := "mystery.jpg", path_lower := "/mystery.jpg",
        path_display := "/mystery.jpg", id := none, media_info := none } = none := by
  have h1 := (C4_unresolved_record_skipped.1 (fun s => s) false
    { nomResult := none, pageUrl := none, rawUrl := none,
      thumbA := false, thumbB := false }
    { tag := "file", name := "mystery.jpg", path_lower := "/mystery.jpg",
      path_display := "/mystery.jpg", id := none, media_info := none }
    (by decide))
  have h2 := (C4_unresolved_record_skipped.2 false false []
    { sharedLink := .ok "r", fetchOk := .ok (), exif := none,
      geocode := .ok none, jimpOk := .ok () }
    { tag := "file", name := "mystery.jpg", path_lower := "/mystery.jpg",
      path_display := "/mystery.jpg", id := none, media_info := none }
    ⟨none, none, none⟩ "r" (by decide) (by decide))
  refine ⟨h1.1, ?_, h2.1⟩
  rw [h1.2 []]
  simp [Build1.mainLoop]

/-- **C9.** At the end of a run the number of emitted features plus the
skipped count equals the number of listed entries: each record is
classified exactly once, in both main-loop variants. -/
theorem C9_feature_skip_accounting :
    (∀ md5 en (l : List (Entry × Build1.Oracle)),
      (Build1.mainLoop md5 en l).1.length + (Build1.mainLoop md5 en l).2 = l.length) ∧
    (∀ dis en ov (l : List (Entry × Part0.Oracle)),
      (Part0.mainLoop dis en ov l).1.length + (Part0.mainLoop dis en ov l).2 = l.length) := by
  constructor
  · intro md5 en l
    induction l with
    | nil => simp [Build1.mainLoop]
    | cons p rest ih =>
      rcases p with ⟨f, o⟩
      rcases h : Build1.processEntry md5 en o f with _ | ft <;>
        simp [Build1.mainLoop, h] <;> omega
  · intro dis en ov l
    induction l with
    | nil => simp [Part0.mainLoop]
    | cons p rest ih =>
      rcases p with ⟨f, o⟩
      rcases h : Part0.processEntry dis en ov o f with _ | ft <;>
        simp [Part0.mainLoop, h] <;> omega

end PhotoMap

namespace PhotoMap

/-- **C6.** A throw while fetching bytes, obtaining the per-file link,
calling the geocoder, or building the thumbnail is caught by the
record-level `catch`: the record is skipped and the remaining records
are processed exactly as they would have been on their own (a failure on
record A does not prevent record B from resolving). -/
theorem C6_record_failure_isolated :
    (∀ dis en ov (o : Part0.Oracle) f, o.sharedLink = .error () →
       Part0.processEntry dis en ov o f = none) ∧
    (∀ dis en ov (o : Part0.Oracle) f, o.fetchOk = .error () →
       Part0.processEntry dis en ov o f = none) ∧
    (∀ dis ov (o : Part0.Oracle) f, o.geocode = .error () →
       ((Part0.overrideStep ov f (Part0.exifStep dis o.exif (Part0.mediaStep f))).lat = none ∨
        (Part0.overrideStep ov f (Part0.exifStep dis o.exif (Part0.mediaStep f))).lon = none) →
       Part0.processEntry dis true ov o f = none) ∧
    (∀ dis en ov (o : Part0.Oracle) f, o.jimpOk = .error () →
       Part0.processEntry dis en ov o f = none) ∧
    (∀ dis en ov A (oa : Part0.Oracle) B (ob : Part0.Oracle) ft,
       Part0.body dis en ov oa A = .error () →
       Part0.processEntry dis en ov ob B = some ft →
       Part0.mainLoop dis en ov [(A, oa), (B, ob)] = ([ft], 1)) := by
  refine And.intro ?_ (And.intro ?_ (And.intro ?_ (And.intro ?_ ?_)))
  · intro dis en ov o f h
    simp [Part0.processEntry, Part0.body, Part0.resolveCoords, h]
  · intro dis en ov o f h
    rcases hL : o.sharedLink with e | u
    · cases e
      simp [Part0.processEntry, Part0.body, Part0.resolveCoords, hL]
    · simp [Part0.processEntry, Part0.body, Part0.resolveCoords, hL, h]
  · intro dis ov o f hgeo hmiss
    rcases hL : o.sharedLink with e | u
    · cases e
      simp [Part0.processEntry, Part0.body, Part0.resolveCoords, hL]
    · rcases hF : o.fetchOk with e | uu
      · cases e
        simp [Part0.processEntry, Part0.body, Part0.resolveCoords, hL, hF]
      · cases uu
        rcases hmiss with hm1 | hm1 <;>
          simp [Part0.processEntry, Part0.body, Part0.resolveCoords, hL, hF, hgeo, hm1]
  · intro dis en ov o f h
    unfold Part0.processEntry Part0.body
    rcases hR : Part0.resolveCoords dis en ov o f with e | p
    · simp
    · obtain ⟨s, rawUrl⟩ := p
      rcases hLa : s.lat with _ | la
      · simp [hLa]
      · rcases hLo : s.lon with _ | lo
        · simp [hLa, hLo]
        · simp [hLa, hLo, h]
  · intro dis en ov A oa B ob ft hA hB
    have hpa : Part0.processEntry dis en ov oa A = none := by
      simp [Part0.processEntry, hA]
    simp [Part0.mainLoop, hpa, hB]

/-- Witness for C6: record A's shared-link call throws while record B
resolves from its embedded metadata; the run yields B's feature and one
skip. -/
theorem C6_witness :
    Part0.mainLoop false false []
      [({ tag := "file", name := "broken.jpg", path_lower := "/broken.jpg",
          path_display := "/broken.jpg", id := none, media_info := none },
        { sharedLink := .error (), fetchOk := .ok (), exif := none,
          geocode := .ok none, jimpOk := .ok () }),
       ({ tag := "file", name := "x.jpg", path_lower := "/x.jpg",
          path_display := "/x.jpg", id := none,
          media_info := some ⟨some ⟨some ⟨some ⟨45, 0⟩, some ⟨25, 0⟩⟩, some "2021-07-01"⟩⟩ },
        { sharedLink := .ok "r", fetchOk := .ok (), exif := none,
          geocode := .ok none, jimpOk := .ok () })] =
      ([{ title := "x.jpg", dropbox_path := "/x.jpg", url := "/thumbs/x.jpg",
          original := "r", taken_at := some "2021-07-01",
          lon := ⟨25, 0⟩, lat := ⟨45, 0⟩ }], 1) :=
  (C6_record_failure_isolated.2.2.2.2 false false []
    { tag := "file", name := "broken.jpg", path_lower := "/broken.jpg",
      path_display := "/broken.jpg", id := none, media_info := none }
    { sharedLink := .error (), fetchOk := .ok (), exif := none,
      geocode := .ok none, jimpOk := .ok () }
    { tag := "file", name := "x.jpg", path_lower := "/x.jpg",
      path_display := "/x.jpg", id := none,
      media_info := some ⟨some ⟨some ⟨some ⟨45, 0⟩, some ⟨25, 0⟩⟩, some "2021-07-01"⟩⟩ }
    { sharedLink := .ok "r", fetchOk := .ok (), exif := none,
      geocode := .ok none, jimpOk := .ok () }
    { title := "x.jpg", dropbox_path := "/x.jpg", url := "/thumbs/x.jpg",
      original := "r", taken_at := some "2021-07-01",
      lon := ⟨25, 0⟩, lat := ⟨45, 0⟩ }
    (by decide) (by decide))

end PhotoMap

namespace PhotoMap

lemma jsOrStr_none (x : Option String) : jsOrStr none x = x := rfl

/-- Feeding a state with a missing coordinate and no source tag through
the guess and Nominatim steps either leaves a coordinate missing or tags
the state `"filename"` or `"nominatim"`. -/
lemma guessNom_source_spec (en : Bool) (nomR : Option (DecNum × DecNum))
    (f : Entry) (s : Build1.RState)
    (hsrc : s.source = none) (hmiss : s.lat = none ∨ s.lon = none) :
    ((Build1.nomStep en nomR (Build1.guessStep f s)).lat = none ∨
     (Build1.nomStep en nomR (Build1.guessStep f s)).lon = none) ∨
    ((Build1.nomStep en nomR (Build1.guessStep f s)).source = some "filename" ∨
     (Build1.nomStep en nomR (Build1.guessStep f s)).source = some "nominatim") := by
  unfold Build1.guessStep
  rw [if_pos hmiss]
  rcases hg : guessFromFilename f.name with _ | g
  · unfold Build1.nomStep
    by_cases hen : (s.lat = none ∨ s.lon = none) ∧ en = true
    · rw [if_pos hen]
      rcases hn : nomR with _ | n
      · exact Or.inl hmiss
      · right; right; simp [hsrc, jsOrStr]
    · rw [if_neg hen]
      exact Or.inl hmiss
  · unfold Build1.nomStep
    rw [if_neg (by simp)]
    right; left; simp [hsrc, jsOrStr]

/-- Every state coming out of the full fallback chain either misses a
coordinate (and is skipped) or carries one of the three source tags the
code can assign. -/
lemma resolve1_source_spec (en : Bool) (o : Build1.Oracle) (f : Entry) :
    ((Build1.resolve en o f).lat = none ∨ (Build1.resolve en o f).lon = none) ∨
    ((Build1.resolve en o f).source = some "media_info" ∨
     (Build1.resolve en o f).source = some "filename" ∨
     (Build1.resolve en o f).source = some "nominatim") := by
  unfold Build1.resolve
  rcases hmm : f.media_info.bind (·.metadata) with _ | m
  · have hs : Build1.mediaStep f = ⟨none, none, none, none⟩ := by
      simp [Build1.mediaStep, hmm]
    rw [hs]
    rcases guessNom_source_spec en o.nomResult f ⟨none, none, none, none⟩ rfl (Or.inl rfl)
      with h | h
    · exact Or.inl h
    · exact Or.inr (Or.inr h)
  · rcases hloc : m.location with _ | loc
    · have hs : Build1.mediaStep f = ⟨none, none, none, none⟩ := by
        simp [Build1.mediaStep, hmm, hloc]
      rw [hs]
      rcases guessNom_source_spec en o.nomResult f ⟨none, none, none, none⟩ rfl (Or.inl rfl)
        with h | h
      · exact Or.inl h
      · exact Or.inr (Or.inr h)
    · rcases hla : loc.latitude with _ | la
      · have hs : Build1.mediaStep f =
            ⟨loc.longitude, none, jsOrStr m.time_taken none, none⟩ := by
          simp [Build1.mediaStep, hmm, hloc, hla]
        rw [hs]
        rcases guessNom_source_spec en o.nomResult f
            ⟨loc.longitude, none, jsOrStr m.time_taken none, none⟩ rfl (Or.inl rfl)
          with h | h
        · exact Or.inl h
        · exact Or.inr (Or.inr h)
      · rcases hlo : loc.longitude with _ | lo
        · have hs : Build1.mediaStep f =
              ⟨none, some la, jsOrStr m.time_taken none, none⟩ := by
            simp [Build1.mediaStep, hmm, hloc, hla, hlo]
          rw [hs]
          rcases guessNom_source_spec en o.nomResult f
              ⟨none, some la, jsOrStr m.time_taken none, none⟩ rfl (Or.inr rfl)
            with h | h
          · exact Or.inl h
          · exact Or.inr (Or.inr h)
        · have hs : Build1.mediaStep f =
              ⟨some lo, some la, jsOrStr m.time_taken none, some "media_info"⟩ := by
            simp [Build1.mediaStep, hmm, hloc, hla, hlo]
          rw [hs]
          have hg : Build1.guessStep f ⟨some lo, some la, jsOrStr m.time_taken none,
              some "media_info"⟩ = ⟨some lo, some la, jsOrStr m.time_taken none,
              some "media_info"⟩ := by
            unfold Build1.guessStep
            rw [if_neg (by simp)]
          rw [hg]
          unfold Build1.nomStep
          rw [if_neg (by simp)]
          exact Or.inr (Or.inl rfl)

/-- **C7 (amended).** Every emitted feature of the gazetteer variant
carries one of the three source tags the code actually assigns:
`"media_info"`, `"filename"` or `"nominatim"`.  (The five-value
enumeration in the specification does not match the code: no variant
ever writes `"exif"`, `"override"` or `"geocode"`, and the geocoder tag
the code writes is `"nominatim"`.) -/
theorem C7_amended_source_tags (md5 : String → String) (en : Bool)
    (o : Build1.Oracle) (f : Entry) (ft : Build1.Feature)
    (hp : Build1.processEntry md5 en o f = some ft) :
    ft.source = some "media_info" ∨ ft.source = some "filename" ∨
    ft.source = some "nominatim" := by
  simp only [Build1.processEntry] at hp
  rcases hLa : (Build1.resolve en o f).lat with _ | la
  · rw [hLa] at hp; simp at hp
  · rcases hLo : (Build1.resolve en o f).lon with _ | lo
    · rw [hLa, hLo] at hp; simp at hp
    · rw [hLa, hLo] at hp
      simp only [Option.some.injEq] at hp
      have hsrc : ft.source = (Build1.resolve en o f).source := by
        rw [← hp]
      rw [hsrc]
      rcases resolve1_source_spec en o f with h | h
      · exfalso
        rcases h with h | h
        · rw [hLa] at h; exact Option.noConfusion h
        · rw [hLo] at h; exact Option.noConfusion h
      · exact h

/-- Counterexample for C7 as stated: with the geocoder enabled, a record
resolved by Nominatim is emitted with `properties.source = "nominatim"`,
which is none of the five enumerated values. -/
theorem C7_counterexample :
    Build1.processEntry (fun s => s) true
      { nomResult := some (⟨2612, 2⟩, ⟨4652, 2⟩), pageUrl := none, rawUrl := none,
        thumbA := false, thumbB := false }
      { tag := "file", name := "mystery.jpg", path_lower := "/mystery.jpg",
        path_display := "/mystery.jpg", id := none, media_info := none } =
      some { title := "mystery.jpg", taken_at := none, source := some "nominatim",
             original_page := none, thumb := none, thumb_external := none,
             full_external := none, lon := ⟨2612, 2⟩, lat := ⟨4652, 2⟩ } ∧
    some "nominatim" ∉ ([some "exif", some "media_info", some "override",
                         some "filename", some "geocode"] : List (Option String)) := by
  decide

/-- Witness for the amended C7, at the same concrete Nominatim-resolved
record. -/
theorem C7_witness :
    (some "nominatim" : Option String) = some "media_info" ∨
    (some "nominatim" : Option String) = some "filename" ∨
    (some "nominatim" : Option String) = some "nominatim" :=
  C7_amended_source_tags (fun s => s) true
    { nomResult := some (⟨2612, 2⟩, ⟨4652, 2⟩), pageUrl := none, rawUrl := none,
      thumbA := false, thumbB := false }
    { tag := "file", name := "mystery.jpg", path_lower := "/mystery.jpg",
      path_display := "/mystery.jpg", id := none, media_info := none }
    { title := "mystery.jpg", taken_at := none, source := some "nominatim",
      original_page := none, thumb := none, thumb_external := none,
      full_external := none, lon := ⟨2612, 2⟩, lat := ⟨4652, 2⟩ }
    (by decide)

end PhotoMap

namespace PhotoMap

/-- **C8.** The local thumbnail filename is a deterministic function of
the record's path (strategy A) or id (strategy B): records agreeing on
`path_lower` and `id` get the same name under the same oracle outcomes,
so a rerun overwrites instead of accumulating duplicates. -/
theorem C8_thumbnail_name_deterministic (md5 : String → String)
    (o o' : Build1.Oracle) (f f' : Entry)
    (hpath : f.path_lower = f'.path_lower) (hid : f.id = f'.id)
    (ha : o.thumbA = o'.thumbA) (hb : o.thumbB = o'.thumbB) :
    Build1.thumbName md5 f.path_lower = Build1.thumbName md5 f'.path_lower ∧
    Build1.thumbRel md5 o f = Build1.thumbRel md5 o' f' ∧
    (o.thumbA = true →
      Build1.thumbRel md5 o f = some ("thumbs/" ++ Build1.thumbName md5 f.path_lower)) := by
  refine ⟨by rw [hpath], ?_, ?_⟩
  · unfold Build1.thumbRel
    rw [hpath, hid, ha, hb]
  · intro hA
    unfold Build1.thumbRel
    rw [hA]
    simp

/-- Witness for C8: two listing snapshots of the same file (differing
display path) produce the same thumbnail name and the same materialized
reference. -/
theorem C8_witness :
    Build1.thumbName (fun s => s ++ s) "/a.jpg" = Build1.thumbName (fun s => s ++ s) "/a.jpg" ∧
    Build1.thumbRel (fun s => s ++ s)
      { nomResult := none, pageUrl := none, rawUrl := none, thumbA := true, thumbB := false }
      { tag := "file", name := "A.jpg", path_lower := "/a.jpg", path_display := "/A.jpg",
        id := some "id:1", media_info := none } =
    Build1.thumbRel (fun s => s ++ s)
      { nomResult := some (⟨1, 0⟩, ⟨1, 0⟩), pageUrl := some "p", rawUrl := some "r",
        thumbA := true, thumbB := false }
      { tag := "file", name := "a (copy).jpg", path_lower := "/a.jpg", path_display := "/a.jpg",
        id := some "id:1", media_info := none } ∧
    Build1.thumbRel (fun s => s ++ s)
      { nomResult := none, pageUrl := none, rawUrl := none, thumbA := true, thumbB := false }
      { tag := "file", name := "A.jpg", path_lower := "/a.jpg", path_display := "/A.jpg",
        id := some "id:1", media_info := none } =
      some ("thumbs/" ++ Build1.thumbName (fun s => s ++ s) "/a.jpg") := by
  have h := C8_thumbnail_name_deterministic (fun s => s ++ s)
    { nomResult := none, pageUrl := none, rawUrl := none, thumbA := true, thumbB := false }
    { nomResult := some (⟨1, 0⟩, ⟨1, 0⟩), pageUrl := some "p", rawUrl := some "r",
      thumbA := true, thumbB := false }
    { tag := "file", name := "A.jpg", path_lower := "/a.jpg", path_display := "/A.jpg",
      id := some "id:1", media_info := none }
    { tag := "file", name := "a (copy).jpg", path_lower := "/a.jpg", path_display := "/a.jpg",
      id := some "id:1", media_info := none }
    rfl rfl rfl rfl
  exact ⟨h.1, h.2.1, h.2.2 rfl⟩

end PhotoMap

namespace PhotoMap.Build1

/-! ## The Dropbox listing (`build.mjs` lines 47–69)

The Dropbox API is the external collaborator: `listFolder` is
`filesListFolder` (folder path to first page) and `contin` is
`filesListFolderContinue` (cursor to next page).  Both loops of the
source are `while` loops over external data, so they are fuelled; fuel
exhaustion simply stops early, which only ever shrinks the result. -/

/-- One page of `filesListFolder` results. -/
structure Page where
  entries : List Entry
  has_more : Bool
  cursor : String
deriving DecidableEq, Repr

/-- The `for (const e of data.entries)` scan: folders are queued, image
files are collected, every other entry is dropped
(`build.mjs` lines 55–58 and 62–65). -/
def scanEntries : List Entry → List Entry × List String
  | [] => ([], [])
  | e :: es =>
    let r := scanEntries es
    if e.tag = "folder" then (r.1, e.path_lower :: r.2)
    else if e.tag = "file" ∧ isImage e.name = true then (e :: r.1, r.2)
    else r

/-- The `while (data.has_more)` pagination loop (lines 59–66), starting
from the page already fetched. -/
def pageLoop (contin : String → Page) : Nat → Page →
    List Entry × List String → List Entry × List String
  | 0, _, acc => acc
  | fuel + 1, data, acc =>
    let s := scanEntries data.entries
    let acc' := (acc.1 ++ s.1, acc.2 ++ s.2)
    if data.has_more then pageLoop contin fuel (contin data.cursor) acc'
    else acc'

/-- The `while (queue.length)` loop (lines 50–67). -/
def queueLoop (listFolder contin : String → Page) (fuelPages : Nat) :
    Nat → List String → List Entry → List Entry
  | 0, _, files => files
  | _ + 1, [], files => files
  | fuel + 1, folder :: queue, files =>
    let r := pageLoop contin fuelPages (listFolder folder) (files, queue)
    queueLoop listFolder contin fuelPages fuel r.2 r.1

/-- `listAll` (lines 47–69): breadth-first listing from the shared-folder
root `""`. -/
def listAll (listFolder contin : String → Page) (fuelPages fuelQueue : Nat) :
    List Entry :=
  queueLoop listFolder contin fuelPages fuelQueue [""] []

end PhotoMap.Build1

namespace PhotoMap

lemma scanEntries_files_spec (l : List Entry) :
    ∀ e ∈ (Build1.scanEntries l).1, e.tag = "file" ∧ isImage e.name = true := by
  induction l with
  | nil => intro e he; simp [Build1.scanEntries] at he
  | cons x xs ih =>
    intro e he
    simp only [Build1.scanEntries] at he
    by_cases h1 : x.tag = "folder"
    · rw [if_pos h1] at he; exact ih e he
    · rw [if_neg h1] at he
      by_cases h2 : x.tag = "file" ∧ isImage x.name = true
      · rw [if_pos h2] at he
        rcases List.mem_cons.mp he with rfl | he'
        · exact h2
        · exact ih e he'
      · rw [if_neg h2] at he; exact ih e he

lemma pageLoop_files_spec (contin : String → Build1.Page) :
    ∀ fuel data (acc : List Entry × List String),
      (∀ e ∈ acc.1, e.tag = "file" ∧ isImage e.name = true) →
      ∀ e ∈ (Build1.pageLoop contin fuel data acc).1,
        e.tag = "file" ∧ isImage e.name = true := by
  intro fuel
  induction fuel with
  | zero => intro data acc hacc e he; exact hacc e he
  | succ n ih =>
    intro data acc hacc e he
    simp only [Build1.pageLoop] at he
    have hacc' : ∀ e ∈ acc.1 ++ (Build1.scanEntries data.entries).1,
        e.tag = "file" ∧ isImage e.name = true := by
      intro e' he'
      rcases List.mem_append.mp he' with h | h
      · exact hacc e' h
      · exact scanEntries_files_spec _ e' h
    by_cases hm : data.has_more = true
    · rw [if_pos hm] at he
      exact ih (contin data.cursor) _ hacc' e he
    · rw [if_neg hm] at he
      exact hacc' e he

lemma queueLoop_files_spec (lf c : String → Build1.Page) (fp : Nat) :
    ∀ fq queue files,
      (∀ e ∈ files, e.tag = "file" ∧ isImage e.name = true) →
      ∀ e ∈ Build1.queueLoop lf c fp fq queue files,
        e.tag = "file" ∧ isImage e.name = true := by
  intro fq
  induction fq with
  | zero => intro queue files hf e he; exact hf e he
  | succ n ih =>
    intro queue files hf e he
    cases queue with
    | nil => exact hf e he
    | cons folder rest =>
      simp only [Build1.queueLoop] at he
      refine ih _ _ ?_ e he
      intro e' he'
      exact pageLoop_files_spec c fp (lf folder) (files, rest) hf e' he'

lemma mainLoop1_feature_origin (md5 : String → String) (en : Bool) :
    ∀ (l : List (Entry × Build1.Oracle)) ft, ft ∈ (Build1.mainLoop md5 en l).1 →
      ∃ p ∈ l, Build1.processEntry md5 en p.2 p.1 = some ft := by
  intro l
  induction l with
  | nil => intro ft h; simp [Build1.mainLoop] at h
  | cons p rest ih =>
    intro ft h
    rcases p with ⟨f, o⟩
    rcases hq : Build1.processEntry md5 en o f with _ | ft'
    · simp only [Build1.mainLoop, hq] at h
      rcases ih ft h with ⟨q, hq1, hq2⟩
      exact ⟨q, List.mem_cons_of_mem _ hq1, hq2⟩
    · simp only [Build1.mainLoop, hq] at h
      rcases List.mem_cons.mp h with rfl | h'
      · exact ⟨(f, o), List.mem_cons_self _ _, hq⟩
      · rcases ih ft h' with ⟨q, hq1, hq2⟩
        exact ⟨q, List.mem_cons_of_mem _ hq1, hq2⟩

/-- **C10.** Only entries tagged `"file"` whose lowercased name ends in
one of the eight image extensions are collected by the listing; folder
entries are recursed into; every other entry is ignored and can never
produce an output feature (every emitted feature originates from a
processed listing entry). -/
theorem C10_listing_collects_only_images :
    (∀ lf c fp fq e, e ∈ Build1.listAll lf c fp fq →
      e.tag = "file" ∧ isImage e.name = true) ∧
    (∀ n, isImage n = true ↔ ∃ ext ∈ IMAGE_EXTS, jsEndsWith (jsToLower n) ext = true) ∧
    (∀ (lf c : String → Build1.Page) (d g : Entry) (c0 c1 : String),
      lf "" = ⟨[d], false, c0⟩ → d.tag = "folder" →
      lf d.path_lower = ⟨[g], false, c1⟩ → g.tag = "file" → isImage g.name = true →
      Build1.listAll lf c 1 2 = [g]) ∧
    (∀ md5 en (l : List (Entry × Build1.Oracle)) ft,
      ft ∈ (Build1.mainLoop md5 en l).1 →
      ∃ p ∈ l, Build1.processEntry md5 en p.2 p.1 = some ft) := by
  refine And.intro ?_ (And.intro ?_ (And.intro ?_ ?_))
  · intro lf c fp fq e he
    exact queueLoop_files_spec lf c fp fq [""] [] (by intro e' he'; simp at he') e he
  · intro n
    simp [isImage, List.any_eq_true]
  · intro lf c d g c0 c1 h1 hdf h2 hgf hgi
    have hgnf : ¬ g.tag = "folder" := by rw [hgf]; decide
    simp [Build1.listAll, Build1.queueLoop, Build1.pageLoop, Build1.scanEntries,
          h1, h2, hdf, hgf, hgnf, hgi]
  · exact mainLoop1_feature_origin

/-- Witness for C10: a root folder containing one subfolder which
contains one image file; the listing recurses into the folder and
returns exactly the image entry. -/
theorem C10_witness :
    Build1.listAll
      (fun p => if p = "" then ⟨[{ tag := "folder", name := "Sub", path_lower := "/sub",
                                   path_display := "/Sub", id := none, media_info := none }], false, "c0"⟩
                else ⟨[{ tag := "file", name := "Breb.JPG", path_lower := "/sub/breb.jpg",
                         path_display := "/Sub/Breb.JPG", id := none, media_info := none }], false, "c1"⟩)
      (fun _ => ⟨[], false, ""⟩) 1 2 =
      [{ tag := "file", name := "Breb.JPG", path_lower := "/sub/breb.jpg",
         path_display := "/Sub/Breb.JPG", id := none, media_info := none }] :=
  C10_listing_collects_only_images.2.2.1
    (fun p => if p = "" then ⟨[{ tag := "folder", name := "Sub", path_lower := "/sub",
                                 path_display := "/Sub", id := none, media_info := none }], false, "c0"⟩
              else ⟨[{ tag := "file", name := "Breb.JPG", path_lower := "/sub/breb.jpg",
                       path_display := "/Sub/Breb.JPG", id := none, media_info := none }], false, "c1"⟩)
    (fun _ => ⟨[], false, ""⟩)
    { tag := "folder", name := "Sub", path_lower := "/sub",
      path_display := "/Sub", id := none, media_info := none }
    { tag := "file", name := "Breb.JPG", path_lower := "/sub/breb.jpg",
      path_display := "/Sub/Breb.JPG", id := none, media_info := none }
    "c0" "c1" (by decide) (of_decide_eq_true rfl) (by decide) (of_decide_eq_true rfl)
    (by decide)

end PhotoMap

namespace PhotoMap.Geo

/-! ## GeoJSON serialization (`build.mjs` lines 423–443)

`JSON.stringify` of the feature collection and `JSON.parse` of the
result are modelled by a printer and a recursive-descent parser over a
JSON value tree.  The printer emits the compact form (the `, null, 2`
pretty-printing of the source only inserts whitespace, which carries no
information); numbers are printed from the exact decimal representation
`DecNum`, which covers every value the pipeline puts into a feature. -/

/-- JSON value tree. -/
inductive Json where
  | null
  | bool (b : Bool)
  | num (d : DecNum)
  | str (s : String)
  | arr (xs : List Json)
  | obj (fields : List (String × Json))

/-- Decimal digit character. -/
def digitChar : Nat → Char
  | 0 => '0' | 1 => '1' | 2 => '2' | 3 => '3' | 4 => '4'
  | 5 => '5' | 6 => '6' | 7 => '7' | 8 => '8' | _ => '9'

/-- Big-endian decimal digits of a natural number (empty for `0`). -/
def natDigits (n : Nat) : List Char :=
  ((Nat.digits 10 n).map digitChar).reverse

/-- Decimal rendering of a `DecNum`: the mantissa's digits padded to at
least `e + 1` digits, with a decimal point inserted before the last `e`
of them. -/
def printNum (d : DecNum) : List Char :=
  let ds := natDigits d.m.natAbs
  let pad := List.replicate (d.e + 1 - ds.length) '0' ++ ds
  let intPart := pad.take (pad.length - d.e)
  let fracPart := pad.drop (pad.length - d.e)
  (if d.m < 0 then ['-'] else []) ++
    (if d.e = 0 then intPart else intPart ++ '.' :: fracPart)

/-- Lowercase hexadecimal digit character. -/
def hexDigit : Nat → Char
  | 0 => '0' | 1 => '1' | 2 => '2' | 3 => '3' | 4 => '4' | 5 => '5'
  | 6 => '6' | 7 => '7' | 8 => '8' | 9 => '9' | 10 => 'a' | 11 => 'b'
  | 12 => 'c' | 13 => 'd' | 14 => 'e' | _ => 'f'

/-- JSON string escaping: `"` and `\` get a backslash, control
characters become `\u00XX`, everything else is copied. -/
def escChar (c : Char) : List Char :=
  if c = '"' then ['\\', '"']
  else if c = '\\' then ['\\', '\\']
  else if c.toNat < 32 then
    ['\\', 'u', hexDigit (c.toNat / 4096 % 16), hexDigit (c.toNat / 256 % 16),
     hexDigit (c.toNat / 16 % 16), hexDigit (c.toNat % 16)]
  else [c]

/-- A JSON string literal. -/
def printStr (s : String) : List Char :=
  '"' :: s.data.flatMap escChar ++ ['"']

mutual

/-- Compact JSON rendering of a value. -/
def printJson : Json → List Char
  | .null => "null".data
  | .bool true => "true".data
  | .bool false => "false".data
  | .num d => printNum d
  | .str s => printStr s
  | .arr xs => '[' :: printElems xs ++ [']']
  | .obj fs => '\x7b' :: printMembers fs ++ ['\x7d']

/-- Comma-separated array elements. -/
def printElems : List Json → List Char
  | [] => []
  | [x] => printJson x
  | x :: y :: xs => printJson x ++ ',' :: printElems (y :: xs)

/-- Comma-separated `"key":value` members. -/
def printMembers : List (String × Json) → List Char
  | List.nil => List.nil
  | [(k, v)] => printStr k ++ ':' :: printJson v
  | (k, v) :: m :: ms => printStr k ++ ':' :: printJson v ++ ',' :: printMembers (m :: ms)

end

mutual

/-- Parser fuel needed for a value. -/
def sizeJ : Json → Nat
  | .arr xs => sizeL xs + 1
  | .obj fs => sizeM fs + 1
  | _ => 1

/-- Parser fuel needed for array elements. -/
def sizeL : List Json → Nat
  | [] => 0
  | x :: xs => sizeJ x + sizeL xs + 1

/-- Parser fuel needed for object members. -/
def sizeM : List (String × Json) → Nat
  | List.nil => 0
  | (_k, v) :: fs => sizeJ v + sizeM fs + 1

end

/-- Decimal digit test. -/
def isDigitCh (c : Char) : Bool := 48 ≤ c.toNat ∧ c.toNat ≤ 57

/-- Reads a maximal digit run, extending the accumulator positionally;
returns the value, the number of digits read, and the rest. -/
def parseDigits (acc : Nat) : List Char → Nat × Nat × List Char
  | [] => (acc, 0, [])
  | c :: rest =>
    if isDigitCh c then
      let r := parseDigits (acc * 10 + (c.toNat - 48)) rest
      (r.1, r.2.1 + 1, r.2.2)
    else (acc, 0, c :: rest)

/-- Parses the digits of a JSON number after the optional minus sign:
integer digits, then an optional fraction. -/
def parseNumBody (neg : Bool) (cs : List Char) : Option (DecNum × List Char) :=
  let r1 := parseDigits 0 cs
  if r1.2.1 = 0 then none
  else
    match r1.2.2 with
    | c :: rest2 =>
      if c = '.' then
        let r2 := parseDigits r1.1 rest2
        if r2.2.1 = 0 then none
        else some (⟨if neg then -(r2.1 : Int) else (r2.1 : Int), r2.2.1⟩, r2.2.2)
      else some (⟨if neg then -(r1.1 : Int) else (r1.1 : Int), 0⟩, c :: rest2)
    | [] => some (⟨if neg then -(r1.1 : Int) else (r1.1 : Int), 0⟩, [])

/-- Parses a JSON number in the form the printer emits (optional minus,
integer digits, optional fraction). -/
def parseNum (cs : List Char) : Option (DecNum × List Char) :=
  match cs with
  | c :: rest => if c = '-' then parseNumBody true rest else parseNumBody false (c :: rest)
  | [] => parseNumBody false []

/-- Hexadecimal digit value. -/
def hexVal (c : Char) : Option Nat :=
  if 48 ≤ c.toNat ∧ c.toNat ≤ 57 then some (c.toNat - 48)
  else if 97 ≤ c.toNat ∧ c.toNat ≤ 102 then some (c.toNat - 87)
  else if 65 ≤ c.toNat ∧ c.toNat ≤ 70 then some (c.toNat - 55)
  else none

/-- Parses the body of a string literal after the opening quote. -/
def parseStrBody (acc : List Char) : List Char → Option (String × List Char)
  | [] => none
  | c :: rest =>
    if c = '"' then some (⟨acc.reverse⟩, rest)
    else if c = '\\' then
      match rest with
      | [] => none
      | e :: r =>
        if e = '"' then parseStrBody ('"' :: acc) r
        else if e = '\\' then parseStrBody ('\\' :: acc) r
        else if e = 'u' then
          match r with
          | h1 :: h2 :: h3 :: h4 :: r2 =>
            match hexVal h1, hexVal h2, hexVal h3, hexVal h4 with
            | some a, some b, some c2, some d2 =>
              parseStrBody (Char.ofNat (((a * 16 + b) * 16 + c2) * 16 + d2) :: acc) r2
            | _, _, _, _ => none
          | _ => none
        else none
    else parseStrBody (c :: acc) rest

/-- One step of the value parser, with the parsers for array elements
and object members supplied as arguments. -/
def parseValBody (pe : List Char → Option (List Json × List Char))
    (pm : List Char → Option (List (String × Json) × List Char))
    (cs : List Char) : Option (Json × List Char) :=
  match cs with
  | [] => none
  | c :: rest =>
    if c = 'n' then
      if rest.take 3 = 'u' :: ('l' :: ('l' :: [])) then some (.null, rest.drop 3) else none
    else if c = 't' then
      if rest.take 3 = 'r' :: ('u' :: ('e' :: [])) then some (.bool true, rest.drop 3) else none
    else if c = 'f' then
      if rest.take 4 = 'a' :: ('l' :: ('s' :: ('e' :: []))) then some (.bool false, rest.drop 4)
      else none
    else if c = '"' then
      match parseStrBody [] rest with
      | some (s, r) => some (.str s, r)
      | none => none
    else if c = '[' then
      match rest with
      | c2 :: r2 =>
        if c2 = ']' then some (.arr [], r2)
        else
          match pe rest with
          | some (xs, r) => some (.arr xs, r)
          | none => none
      | [] => none
    else if c = '\x7b' then
      match rest with
      | c2 :: r2 =>
        if c2 = '\x7d' then some (.obj [], r2)
        else
          match pm rest with
          | some (fs, r) => some (.obj fs, r)
          | none => none
      | [] => none
    else if c = '-' ∨ isDigitCh c = true then
      match parseNum (c :: rest) with
      | some (d, r) => some (.num d, r)
      | none => none
    else none

/-- One step of the element-list parser. -/
def parseElemsBody (pv : List Char → Option (Json × List Char))
    (pe : List Char → Option (List Json × List Char))
    (cs : List Char) : Option (List Json × List Char) :=
  match pv cs with
  | some (j, rest) =>
    match rest with
    | c :: r2 =>
      if c = ',' then
        match pe r2 with
        | some (xs, r) => some (j :: xs, r)
        | none => none
      else if c = ']' then some ([j], r2)
      else none
    | [] => none
  | none => none

/-- One step of the member-list parser. -/
def parseMembersBody (pv : List Char → Option (Json × List Char))
    (pm : List Char → Option (List (String × Json) × List Char))
    (cs : List Char) : Option (List (String × Json) × List Char) :=
  match cs with
  | c :: rest =>
    if c = '"' then
      match parseStrBody [] rest with
      | some (k, r1) =>
        match r1 with
        | c2 :: r2 =>
          if c2 = ':' then
            match pv r2 with
            | some (v, r3) =>
              match r3 with
              | c3 :: r4 =>
                if c3 = ',' then
                  match pm r4 with
                  | some (fs, r) => some ((k, v) :: fs, r)
                  | none => none
                else if c3 = '\x7d' then some ([(k, v)], r4)
                else none
              | [] => none
            | none => none
          else none
        | [] => none
      | none => none
    else none
  | [] => none

mutual

/-- Fuelled recursive-descent parser for a JSON value. -/
def parseVal : Nat → List Char → Option (Json × List Char)
  | 0, _ => none
  | fuel + 1, cs => parseValBody (parseElems fuel) (parseMembers fuel) cs

/-- Parses one or more comma-separated elements up to the closing `]`. -/
def parseElems : Nat → List Char → Option (List Json × List Char)
  | 0, _ => none
  | fuel + 1, cs => parseElemsBody (parseVal fuel) (parseElems fuel) cs

/-- Parses one or more comma-separated members up to the closing brace. -/
def parseMembers : Nat → List Char → Option (List (String × Json) × List Char)
  | 0, _ => none
  | fuel + 1, cs => parseMembersBody (parseVal fuel) (parseMembers fuel) cs

end

/-- `JSON.parse` of a complete document. -/
def parseJson (cs : List Char) : Option Json :=
  match parseVal (cs.length + 1) cs with
  | some (j, []) => some j
  | _ => none

end PhotoMap.Geo

namespace PhotoMap.Geo

/-! ## Correctness of the number codec -/

/-- Value of a big-endian digit string. -/
def valDigits (ds : List Char) : Nat :=
  ds.foldl (fun a c => a * 10 + (c.toNat - 48)) 0

/-- The rest of the input does not begin with a digit. -/
def noDigitHead : List Char → Prop
  | [] => True
  | c :: _ => isDigitCh c = false

/-- The rest of the input does not begin with a digit or a dot. -/
def numDelim : List Char → Prop
  | [] => True
  | c :: _ => isDigitCh c = false ∧ c ≠ '.'

lemma foldl_digits_shift (ds : List Char) (a : Nat) :
    ds.foldl (fun x c => x * 10 + (c.toNat - 48)) a = a * 10 ^ ds.length + valDigits ds := by
  induction ds generalizing a with
  | nil => simp [valDigits]
  | cons c ds ih =>
    show List.foldl _ (a * 10 + (c.toNat - 48)) ds = _
    rw [ih]
    have hval : valDigits (c :: ds) = (c.toNat - 48) * 10 ^ ds.length + valDigits ds := by
      show List.foldl _ (0 * 10 + (c.toNat - 48)) ds = _
      rw [ih]
      ring_nf
    rw [hval]
    simp [List.length_cons, pow_succ]
    ring

lemma parseDigits_spec (ds : List Char) (hds : ∀ c ∈ ds, isDigitCh c = true) :
    ∀ (acc : Nat) (rest : List Char), noDigitHead rest →
      parseDigits acc (ds ++ rest) = (acc * 10 ^ ds.length + valDigits ds, ds.length, rest) := by
  induction ds with
  | nil =>
    intro acc rest hrest
    cases rest with
    | nil => simp [parseDigits, valDigits]
    | cons c r =>
      have hc : isDigitCh c = false := hrest
      simp [parseDigits, hc, valDigits]
  | cons d ds ih =>
    intro acc rest hrest
    have hd : isDigitCh d = true := hds d (List.mem_cons_self d ds)
    simp only [List.cons_append, parseDigits, hd, if_true, List.append_eq]
    rw [ih (fun c hc => hds c (List.mem_cons_of_mem d hc)) (acc * 10 + (d.toNat - 48)) rest hrest]
    have hval : valDigits (d :: ds) = (d.toNat - 48) * 10 ^ ds.length + valDigits ds := by
      show List.foldl _ (0 * 10 + (d.toNat - 48)) ds = _
      rw [foldl_digits_shift]
      ring_nf
    have harith : (acc * 10 + (d.toNat - 48)) * 10 ^ ds.length + valDigits ds
        = acc * (10 ^ ds.length * 10) + ((d.toNat - 48) * 10 ^ ds.length + valDigits ds) := by
      ring
    simp [hval, List.length_cons, pow_succ, harith]

lemma valDigits_append (a b : List Char) :
    valDigits (a ++ b) = valDigits a * 10 ^ b.length + valDigits b := by
  show List.foldl _ 0 (a ++ b) = _
  rw [List.foldl_append, foldl_digits_shift]
  rfl

lemma digitChar_isDigit (d : Nat) (h : d < 10) : isDigitCh (digitChar d) = true := by
  interval_cases d <;> decide

lemma digitChar_val (d : Nat) (h : d < 10) : (digitChar d).toNat - 48 = d := by
  interval_cases d <;> decide

lemma natDigits_digits (n : Nat) : ∀ c ∈ natDigits n, isDigitCh c = true := by
  intro c hc
  unfold natDigits at hc
  rw [List.mem_reverse] at hc
  rcases List.mem_map.mp hc with ⟨d, hd, rfl⟩
  exact digitChar_isDigit d (Nat.digits_lt_base (by norm_num) hd)

lemma valDigits_natDigits (n : Nat) : valDigits (natDigits n) = n := by
  show List.foldl _ 0 (natDigits n) = n
  unfold natDigits
  rw [List.foldl_reverse, List.foldr_map]
  have key : ∀ l : List Nat, (∀ d ∈ l, d < 10) →
      l.foldr (fun d y => y * 10 + ((digitChar d).toNat - 48)) 0 = Nat.ofDigits 10 l := by
    intro l hl
    induction l with
    | nil => simp [Nat.ofDigits]
    | cons d ds ih =>
      rw [List.foldr_cons, ih (fun x hx => hl x (List.mem_cons_of_mem d hx)),
          digitChar_val d (hl d (List.mem_cons_self d ds)), Nat.ofDigits_cons]
      ring
  rw [key _ (fun d hd => Nat.digits_lt_base (by norm_num) hd), Nat.ofDigits_digits]

end PhotoMap.Geo

namespace PhotoMap.Geo

lemma valDigits_replicate_zero (z : Nat) (ds : List Char) :
    valDigits (List.replicate z '0' ++ ds) = valDigits ds := by
  show List.foldl _ 0 _ = _
  rw [List.foldl_append]
  have h0 : List.foldl (fun a c => a * 10 + (c.toNat - 48)) 0 (List.replicate z '0') = 0 := by
    induction z with
    | zero => rfl
    | succ n ih => simpa [List.replicate_succ] using ih
  rw [h0]
  rfl

lemma replicate_zero_digits (z : Nat) : ∀ c ∈ List.replicate z '0', isDigitCh c = true := by
  intro c hc
  rw [List.eq_of_mem_replicate hc]
  decide

lemma parseNumBody_int (ds : List Char) (neg : Bool) (rest : List Char)
    (hds : ∀ c ∈ ds, isDigitCh c = true) (hlen : 1 ≤ ds.length) (hrest : numDelim rest) :
    parseNumBody neg (ds ++ rest) =
      some (⟨if neg then -(valDigits ds : Int) else (valDigits ds : Int), 0⟩, rest) := by
  have hnd : noDigitHead rest := by
    cases rest with
    | nil => trivial
    | cons c r => exact hrest.1
  have h1 := parseDigits_spec ds hds 0 rest hnd
  unfold parseNumBody
  rw [h1]
  dsimp only
  rw [if_neg (show ¬ ds.length = 0 by omega)]
  cases rest with
  | nil => simp
  | cons c r => simp [hrest.2]

lemma parseNumBody_frac (ipart fpart : List Char) (neg : Bool) (rest : List Char)
    (hi : ∀ c ∈ ipart, isDigitCh c = true) (hf : ∀ c ∈ fpart, isDigitCh c = true)
    (hilen : 1 ≤ ipart.length) (hflen : 1 ≤ fpart.length) (hrest : numDelim rest) :
    parseNumBody neg (ipart ++ '.' :: (fpart ++ rest)) =
      some (⟨if neg then -((valDigits ipart * 10 ^ fpart.length + valDigits fpart : Nat) : Int)
             else ((valDigits ipart * 10 ^ fpart.length + valDigits fpart : Nat) : Int),
             fpart.length⟩, rest) := by
  have hnd : noDigitHead rest := by
    cases rest with
    | nil => trivial
    | cons c r => exact hrest.1
  have h1 := parseDigits_spec ipart hi 0 ('.' :: (fpart ++ rest)) (by
    show isDigitCh '.' = false
    decide)
  have h2 := parseDigits_spec fpart hf (valDigits ipart) rest hnd
  unfold parseNumBody
  rw [h1]
  dsimp only
  rw [if_neg (show ¬ ipart.length = 0 by omega)]
  rw [if_pos (rfl : ('.' : Char) = '.')]
  simp only [zero_mul, zero_add]
  rw [h2]
  dsimp only
  rw [if_neg (show ¬ fpart.length = 0 by omega)]

end PhotoMap.Geo

namespace PhotoMap.Geo

lemma decNum_eq {a b : DecNum} (h1 : a.m = b.m) (h2 : a.e = b.e) : a = b := by
  cases a
  cases b
  cases h1
  cases h2
  rfl

lemma isDigitCh_ne_minus {c : Char} (h : isDigitCh c = true) : ¬ c = '-' := by
  intro hc
  subst hc
  simp [isDigitCh] at h

lemma parseNum_printNum (d : DecNum) (rest : List Char) (hrest : numDelim rest) :
    parseNum (printNum d ++ rest) = some (d, rest) := by
  have hbody : printNum d = (if d.m < 0 then ['-'] else []) ++
      (if d.e = 0 then
        (List.replicate (d.e + 1 - (natDigits d.m.natAbs).length) '0' ++
          natDigits d.m.natAbs).take
          ((List.replicate (d.e + 1 - (natDigits d.m.natAbs).length) '0' ++
            natDigits d.m.natAbs).length - d.e)
      else
        (List.replicate (d.e + 1 - (natDigits d.m.natAbs).length) '0' ++
          natDigits d.m.natAbs).take
          ((List.replicate (d.e + 1 - (natDigits d.m.natAbs).length) '0' ++
            natDigits d.m.natAbs).length - d.e) ++ '.' ::
        (List.replicate (d.e + 1 - (natDigits d.m.natAbs).length) '0' ++
          natDigits d.m.natAbs).drop
          ((List.replicate (d.e + 1 - (natDigits d.m.natAbs).length) '0' ++
            natDigits d.m.natAbs).length - d.e)) := rfl
  have hpdig : ∀ c ∈ List.replicate (d.e + 1 - (natDigits d.m.natAbs).length) '0' ++
      natDigits d.m.natAbs, isDigitCh c = true := by
    intro c hc
    rcases List.mem_append.mp hc with h | h
    · exact replicate_zero_digits _ c h
    · exact natDigits_digits _ c h
  have hpval : valDigits (List.replicate (d.e + 1 - (natDigits d.m.natAbs).length) '0' ++
      natDigits d.m.natAbs) = d.m.natAbs := by
    rw [valDigits_replicate_zero, valDigits_natDigits]
  have hplen : d.e + 1 ≤ (List.replicate (d.e + 1 - (natDigits d.m.natAbs).length) '0' ++
      natDigits d.m.natAbs).length := by
    simp only [List.length_append, List.length_replicate]
    omega
  rw [hbody]
  generalize hpad : List.replicate (d.e + 1 - (natDigits d.m.natAbs).length) '0' ++
      natDigits d.m.natAbs = pad at hpdig hpval hplen ⊢
  have hidig : ∀ c ∈ pad.take (pad.length - d.e), isDigitCh c = true :=
    fun c hc => hpdig c (List.take_subset _ _ hc)
  have hfdig : ∀ c ∈ pad.drop (pad.length - d.e), isDigitCh c = true :=
    fun c hc => hpdig c (List.drop_subset _ _ hc)
  have hilen : (pad.take (pad.length - d.e)).length = pad.length - d.e := by
    rw [List.length_take]
    omega
  have hflen : (pad.drop (pad.length - d.e)).length = d.e := by
    rw [List.length_drop]
    omega
  have hvsplit : valDigits (pad.take (pad.length - d.e)) * 10 ^ d.e +
      valDigits (pad.drop (pad.length - d.e)) = d.m.natAbs := by
    have := valDigits_append (pad.take (pad.length - d.e)) (pad.drop (pad.length - d.e))
    rw [List.take_append_drop, hflen] at this
    rw [← this, hpval]
  by_cases he : d.e = 0
  · rw [if_pos he]
    have hipad : pad.take (pad.length - d.e) = pad := by
      rw [he, Nat.sub_zero, List.take_length]
    rw [hipad]
    by_cases hm : d.m < 0
    · rw [if_pos hm]
      show parseNum ('-' :: (pad ++ rest)) = _
      simp only [parseNum]
      rw [if_pos trivial]
      rw [parseNumBody_int pad true rest hpdig (by omega) hrest]
      congr 1
      congr 1
      rw [hpval]
      refine decNum_eq ?_ ?_
      · show -(d.m.natAbs : Int) = d.m
        omega
      · show (0 : Nat) = d.e
        omega
    · rw [if_neg hm]
      rcases hpc : pad with _ | ⟨c0, pt⟩
      · exfalso
        rw [hpc] at hplen
        simp at hplen
      · have hc0 : isDigitCh c0 = true := by
          apply hpdig
          rw [hpc]
          exact List.mem_cons_self _ _
        show parseNum ((c0 :: pt) ++ rest) = _
        simp only [List.cons_append, parseNum]
        rw [if_neg (isDigitCh_ne_minus hc0)]
        rw [show c0 :: (pt ++ rest) = (c0 :: pt) ++ rest from rfl, ← hpc]
        rw [parseNumBody_int pad false rest hpdig (by omega) hrest]
        congr 1
        congr 1
        rw [hpval]
        refine decNum_eq ?_ ?_
        · show (d.m.natAbs : Int) = d.m
          omega
        · show (0 : Nat) = d.e
          omega
  · rw [if_neg he]
    have hkey : ∀ neg : Bool,
        parseNumBody neg ((pad.take (pad.length - d.e) ++ '.' ::
          pad.drop (pad.length - d.e)) ++ rest) =
        some (⟨if neg then -(d.m.natAbs : Int) else (d.m.natAbs : Int), d.e⟩, rest) := by
      intro neg
      rw [List.append_assoc, List.cons_append]
      rw [parseNumBody_frac _ _ neg rest hidig hfdig (by omega) (by omega) hrest]
      rw [hflen, hvsplit]
    by_cases hm : d.m < 0
    · rw [if_pos hm]
      show parseNum ('-' :: ((pad.take (pad.length - d.e) ++ '.' ::
        pad.drop (pad.length - d.e)) ++ rest)) = _
      simp only [parseNum]
      rw [if_pos trivial]
      rw [hkey true]
      congr 1
      congr 1
      refine decNum_eq ?_ ?_
      · show -(d.m.natAbs : Int) = d.m
        omega
      · rfl
    · rw [if_neg hm]
      rcases hip : pad.take (pad.length - d.e) with _ | ⟨c0, it⟩
      · exfalso
        rw [hip] at hilen
        simp at hilen
        omega
      · have hc0 : isDigitCh c0 = true := by
          apply hidig
          rw [hip]
          exact List.mem_cons_self _ _
        show parseNum (((c0 :: it) ++ '.' :: pad.drop (pad.length - d.e)) ++ rest) = _
        simp only [List.cons_append, parseNum]
        rw [if_neg (isDigitCh_ne_minus hc0)]
        rw [show c0 :: (it ++ '.' :: pad.drop (pad.length - d.e) ++ rest) =
          ((c0 :: it) ++ '.' :: pad.drop (pad.length - d.e)) ++ rest from by simp]
        rw [← hip, hkey false]
        congr 1
        congr 1
        refine decNum_eq ?_ ?_
        · show (d.m.natAbs : Int) = d.m
          omega
        · rfl

end PhotoMap.Geo

namespace PhotoMap.Geo

lemma hexVal_hexDigit (x : Nat) (h : x < 16) : hexVal (hexDigit x) = some x := by
  interval_cases x <;> decide

lemma stringMk_data (s : String) : String.mk s.data = s := by
  cases s
  rfl

lemma parseStrBody_roundtrip (cs : List Char) :
    ∀ (acc rest : List Char),
      parseStrBody acc (cs.flatMap escChar ++ ('"' :: rest)) =
        some (⟨acc.reverse ++ cs⟩, rest) := by
  induction cs with
  | nil =>
    intro acc rest
    simp [parseStrBody.eq_def]
  | cons c cs ih =>
    intro acc rest
    have hstep : (c :: cs).flatMap escChar = escChar c ++ cs.flatMap escChar := rfl
    rw [hstep, List.append_assoc]
    by_cases h1 : c = '"'
    · subst h1
      show parseStrBody acc ('\\' :: '"' :: (cs.flatMap escChar ++ '"' :: rest)) = _
      rw [parseStrBody.eq_def]
      dsimp only
      rw [if_neg (by decide), if_pos (by decide), if_pos (by decide)]
      rw [ih ('"' :: acc) rest]
      congr 1
      congr 1
      simp
    · by_cases h2 : c = '\\'
      · subst h2
        show parseStrBody acc ('\\' :: '\\' :: (cs.flatMap escChar ++ '"' :: rest)) = _
        rw [parseStrBody.eq_def]
        dsimp only
        rw [if_neg (by decide), if_pos (by decide), if_neg (by decide), if_pos (by decide)]
        rw [ih ('\\' :: acc) rest]
        congr 1
        congr 1
        simp
      · by_cases h3 : c.toNat < 32
        · have hesc : escChar c = ['\\', 'u', hexDigit (c.toNat / 4096 % 16),
              hexDigit (c.toNat / 256 % 16), hexDigit (c.toNat / 16 % 16),
              hexDigit (c.toNat % 16)] := by
            unfold escChar
            rw [if_neg h1, if_neg h2, if_pos h3]
          rw [hesc]
          show parseStrBody acc ('\\' :: 'u' :: hexDigit (c.toNat / 4096 % 16) ::
            hexDigit (c.toNat / 256 % 16) :: hexDigit (c.toNat / 16 % 16) ::
            hexDigit (c.toNat % 16) :: (cs.flatMap escChar ++ '"' :: rest)) = _
          rw [parseStrBody.eq_def]
          dsimp only
          rw [if_neg (by decide), if_pos (by decide), if_neg (by decide),
              if_neg (by decide), if_pos (by decide)]
          rw [hexVal_hexDigit _ (Nat.mod_lt _ (by norm_num)),
              hexVal_hexDigit _ (Nat.mod_lt _ (by norm_num)),
              hexVal_hexDigit _ (Nat.mod_lt _ (by norm_num)),
              hexVal_hexDigit _ (Nat.mod_lt _ (by norm_num))]
          dsimp only
          have hval : (((c.toNat / 4096) % 16 * 16 + (c.toNat / 256) % 16) * 16 +
              (c.toNat / 16) % 16) * 16 + c.toNat % 16 = c.toNat := by
            omega
          rw [hval, Char.ofNat_toNat]
          rw [ih (c :: acc) rest]
          congr 1
          congr 1
          simp
        · have hesc : escChar c = [c] := by
            unfold escChar
            rw [if_neg h1, if_neg h2, if_neg h3]
          rw [hesc]
          show parseStrBody acc (c :: (cs.flatMap escChar ++ '"' :: rest)) = _
          rw [parseStrBody.eq_def]
          dsimp only
          rw [if_neg h1, if_neg h2]
          rw [ih (c :: acc) rest]
          congr 1
          congr 1
          simp

lemma parseStrBody_printStr (s : String) (rest : List Char) :
    parseStrBody [] (s.data.flatMap escChar ++ ('"' :: rest)) = some (s, rest) := by
  rw [parseStrBody_roundtrip s.data [] rest]
  simp [stringMk_data]

end PhotoMap.Geo

namespace PhotoMap.Geo

/-- The rest begins (if at all) with a structural delimiter. -/
def delimOk : List Char → Bool
  | [] => true
  | c :: _ => c = ',' || c = ']' || c = '\x7d'

lemma delimOk_numDelim {rest : List Char} (h : delimOk rest = true) : numDelim rest := by
  cases rest with
  | nil => trivial
  | cons c r =>
    have h' : c = ',' ∨ c = ']' ∨ c = '\x7d' := by
      have := h
      simp [delimOk] at this
      tauto
    rcases h' with rfl | rfl | rfl <;> exact ⟨by decide, of_decide_eq_true rfl⟩

lemma printNum_shape (d : DecNum) :
    ∃ c cs, printNum d = c :: cs ∧ (c = '-' ∨ isDigitCh c = true) := by
  have hbody : printNum d = (if d.m < 0 then ['-'] else []) ++
      (if d.e = 0 then
        (List.replicate (d.e + 1 - (natDigits d.m.natAbs).length) '0' ++
          natDigits d.m.natAbs).take
          ((List.replicate (d.e + 1 - (natDigits d.m.natAbs).length) '0' ++
            natDigits d.m.natAbs).length - d.e)
      else
        (List.replicate (d.e + 1 - (natDigits d.m.natAbs).length) '0' ++
          natDigits d.m.natAbs).take
          ((List.replicate (d.e + 1 - (natDigits d.m.natAbs).length) '0' ++
            natDigits d.m.natAbs).length - d.e) ++ '.' ::
        (List.replicate (d.e + 1 - (natDigits d.m.natAbs).length) '0' ++
          natDigits d.m.natAbs).drop
          ((List.replicate (d.e + 1 - (natDigits d.m.natAbs).length) '0' ++
            natDigits d.m.natAbs).length - d.e)) := rfl
  have hpdig : ∀ c ∈ List.replicate (d.e + 1 - (natDigits d.m.natAbs).length) '0' ++
      natDigits d.m.natAbs, isDigitCh c = true := by
    intro c hc
    rcases List.mem_append.mp hc with h | h
    · exact replicate_zero_digits _ c h
    · exact natDigits_digits _ c h
  have hplen : d.e + 1 ≤ (List.replicate (d.e + 1 - (natDigits d.m.natAbs).length) '0' ++
      natDigits d.m.natAbs).length := by
    simp only [List.length_append, List.length_replicate]
    omega
  rw [hbody]
  generalize hpad : List.replicate (d.e + 1 - (natDigits d.m.natAbs).length) '0' ++
      natDigits d.m.natAbs = pad at hpdig hplen ⊢
  by_cases hm : d.m < 0
  · exact ⟨'-', _, by rw [if_pos hm]; rfl, Or.inl rfl⟩
  · rw [if_neg hm]
    have hilen : (pad.take (pad.length - d.e)).length = pad.length - d.e := by
      rw [List.length_take]
      omega
    rcases hip : pad.take (pad.length - d.e) with _ | ⟨c0, it⟩
    · exfalso
      rw [hip] at hilen
      simp at hilen
      omega
    · have hc0 : isDigitCh c0 = true := by
        apply hpdig
        apply List.take_subset
        rw [hip]
        exact List.mem_cons_self _ _
      by_cases he : d.e = 0
      · exact ⟨c0, it, by rw [if_pos he]; simp, Or.inr hc0⟩
      · exact ⟨c0, it ++ '.' :: pad.drop (pad.length - d.e),
          by rw [if_neg he]; simp, Or.inr hc0⟩

lemma numStart_ne {c : Char} (h : c = '-' ∨ isDigitCh c = true) :
    ¬c = 'n' ∧ ¬c = 't' ∧ ¬c = 'f' ∧ ¬c = '"' ∧ ¬c = '[' ∧ ¬c = '\x7b' ∧
    ¬c = ']' ∧ ¬c = '\x7d' ∧ ¬c = ',' := by
  rcases h with rfl | h
  · decide
  · have hd : 48 ≤ c.toNat ∧ c.toNat ≤ 57 := by simpa [isDigitCh] using h
    obtain ⟨hd1, hd2⟩ := hd
    have key : ∀ x : Char, x.toNat < 48 ∨ 57 < x.toNat → ¬c = x := by
      intro x hx hc
      subst hc
      omega
    exact ⟨key _ (by decide), key _ (by decide), key _ (by decide), key _ (by decide),
      key _ (by decide), key _ (by decide), key _ (by decide), key _ (by decide),
      key _ (by decide)⟩

lemma printJson_shape (j : Json) :
    ∃ c cs, printJson j = c :: cs ∧ ¬c = ']' ∧ ¬c = '\x7d' ∧ ¬c = ',' := by
  cases j with
  | null =>
    refine ⟨'n', "ull".data, rfl, ?_, ?_, ?_⟩ <;> decide
  | bool b =>
    cases b with
    | true =>
      refine ⟨'t', "rue".data, rfl, ?_, ?_, ?_⟩ <;> decide
    | false =>
      refine ⟨'f', "alse".data, rfl, ?_, ?_, ?_⟩ <;> decide
  | num d =>
    rcases printNum_shape d with ⟨c, cs, hp, hc⟩
    have hne := numStart_ne hc
    exact ⟨c, cs, by simp [printJson, hp], hne.2.2.2.2.2.2.1, hne.2.2.2.2.2.2.2.1,
      hne.2.2.2.2.2.2.2.2⟩
  | str s =>
    exact ⟨'"', s.data.flatMap escChar ++ ['"'], by simp [printJson, printStr],
      by decide, by decide, by decide⟩
  | arr xs =>
    exact ⟨'[', printElems xs ++ [']'], by simp [printJson], by decide, by decide, by decide⟩
  | obj fs =>
    exact ⟨'\x7b', printMembers fs ++ ['\x7d'], by simp [printJson],
      by decide, by decide, by decide⟩

lemma printElems_shape (x : Json) (xs : List Json) :
    ∃ c cs, printElems (x :: xs) = c :: cs ∧ ¬c = ']' ∧ ¬c = '\x7d' ∧ ¬c = ',' := by
  rcases printJson_shape x with ⟨c, cs, hp, h1, h2, h3⟩
  cases xs with
  | nil => exact ⟨c, cs, by simp [printElems, hp], h1, h2, h3⟩
  | cons y ys =>
    exact ⟨c, cs ++ ',' :: printElems (y :: ys), by simp [printElems, hp], h1, h2, h3⟩

lemma sizeJ_pos (j : Json) : 1 ≤ sizeJ j := by
  cases j <;> simp [sizeJ]

end PhotoMap.Geo

namespace PhotoMap.Geo

lemma printMembers_shape (k : String) (v : Json) (fs : List (String × Json)) :
    ∃ cs, printMembers ((k, v) :: fs) = '"' :: cs := by
  cases fs with
  | nil =>
    refine ⟨k.data.flatMap escChar ++ ('"' :: (':' :: printJson v)), ?_⟩
    simp [printMembers, printStr]
  | cons m ms =>
    refine ⟨k.data.flatMap escChar ++ ('"' :: (':' :: (printJson v ++
      (',' :: printMembers (m :: ms))))), ?_⟩
    simp [printMembers, printStr]

lemma parse_print_aux : ∀ fuel : Nat,
    (∀ (j : Json) (rest : List Char), sizeJ j ≤ fuel → delimOk rest = true →
      parseVal fuel (printJson j ++ rest) = some (j, rest)) ∧
    (∀ (x : Json) (xs : List Json) (rest : List Char), sizeL (x :: xs) ≤ fuel →
      parseElems fuel (printElems (x :: xs) ++ (']' :: rest)) = some (x :: xs, rest)) ∧
    (∀ (k : String) (v : Json) (fs : List (String × Json)) (rest : List Char),
      sizeM ((k, v) :: fs) ≤ fuel →
      parseMembers fuel (printMembers ((k, v) :: fs) ++ ('\x7d' :: rest)) =
        some ((k, v) :: fs, rest)) := by
  intro fuel
  induction fuel with
  | zero =>
    refine And.intro ?_ (And.intro ?_ ?_)
    · intro j rest hs _
      have := sizeJ_pos j
      omega
    · intro x xs rest hs
      simp [sizeL] at hs
    · intro k v fs rest hs
      simp [sizeM] at hs
  | succ fuel ih =>
    obtain ⟨ihV, ihE, ihM⟩ := ih
    refine And.intro ?_ (And.intro ?_ ?_)
    · intro j rest hs hrest
      cases j with
      | null =>
        have hp : printJson Json.null ++ rest = 'n' :: ('u' :: ('l' :: ('l' :: rest))) := rfl
        have h2 : parseVal (fuel + 1) ('n' :: ('u' :: ('l' :: ('l' :: rest)))) =
            some (Json.null, rest) := by
          simp [parseVal, parseValBody]
        exact (congrArg (parseVal (fuel + 1)) hp).trans h2
      | bool b =>
        cases b with
        | true =>
          have hp : printJson (Json.bool true) ++ rest =
              't' :: ('r' :: ('u' :: ('e' :: rest))) := rfl
          have h2 : parseVal (fuel + 1) ('t' :: ('r' :: ('u' :: ('e' :: rest)))) =
              some (Json.bool true, rest) := by
            simp [parseVal, parseValBody]
          exact (congrArg (parseVal (fuel + 1)) hp).trans h2
        | false =>
          have hp : printJson (Json.bool false) ++ rest =
              'f' :: ('a' :: ('l' :: ('s' :: ('e' :: rest)))) := rfl
          have h2 : parseVal (fuel + 1) ('f' :: ('a' :: ('l' :: ('s' :: ('e' :: rest))))) =
              some (Json.bool false, rest) := by
            simp [parseVal, parseValBody]
          exact (congrArg (parseVal (fuel + 1)) hp).trans h2
      | str s =>
        have hk := parseStrBody_printStr s rest
        simp [parseVal, parseValBody, printJson, printStr, hk]
      | num d =>
        rcases printNum_shape d with ⟨c, cs, hpn, hc⟩
        obtain ⟨h1, h2, h3, h4, h5, h6, _, _, _⟩ := numStart_ne hc
        have hn := parseNum_printNum d rest (delimOk_numDelim hrest)
        rw [hpn] at hn
        simp only [List.cons_append] at hn
        simp [parseVal, parseValBody, printJson, hpn, h1, h2, h3, h4, h5, h6, hc, hn]
      | arr xs =>
        cases xs with
        | nil => simp [parseVal, parseValBody, printJson, printElems]
        | cons x xs' =>
          rcases printElems_shape x xs' with ⟨c0, cs0, hpe, h1, h2, h3⟩
          have hsz : sizeL (x :: xs') ≤ fuel := by
            simp [sizeJ] at hs
            omega
          have he : parseElems fuel (c0 :: (cs0 ++ (']' :: rest))) = some (x :: xs', rest) := by
            have h := ihE x xs' rest hsz
            rw [hpe] at h
            simpa using h
          simp [parseVal, parseValBody, printJson, hpe, h1, he]
      | obj fs =>
        cases fs with
        | nil => simp [parseVal, parseValBody, printJson, printMembers]
        | cons kv fs' =>
          rcases kv with ⟨k, v⟩
          rcases printMembers_shape k v fs' with ⟨cs0, hpm⟩
          have hsz : sizeM ((k, v) :: fs') ≤ fuel := by
            simp [sizeJ] at hs
            omega
          have hm : parseMembers fuel ('"' :: (cs0 ++ ('\x7d' :: rest))) =
              some ((k, v) :: fs', rest) := by
            have h := ihM k v fs' rest hsz
            rw [hpm] at h
            simpa using h
          simp [parseVal, parseValBody, printJson, hpm, hm]
    · intro x xs rest hs
      cases xs with
      | nil =>
        have hsz : sizeJ x ≤ fuel := by
          simp [sizeL] at hs
          omega
        have hv := ihV x (']' :: rest) hsz rfl
        simp [parseElems, parseElemsBody, printElems, hv]
      | cons y ys =>
        have h1 := sizeJ_pos x
        have hsz1 : sizeJ x ≤ fuel := by
          simp [sizeL] at hs
          omega
        have hsz2 : sizeL (y :: ys) ≤ fuel := by
          simp [sizeL] at hs ⊢
          omega
        have hv := ihV x (',' :: (printElems (y :: ys) ++ (']' :: rest))) hsz1 rfl
        have he := ihE y ys rest hsz2
        simp [parseElems, parseElemsBody, printElems, hv, he]
    · intro k v fs rest hs
      cases fs with
      | nil =>
        have hsz : sizeJ v ≤ fuel := by
          simp [sizeM] at hs
          omega
        have hv := ihV v ('\x7d' :: rest) hsz rfl
        have hk := parseStrBody_printStr k (':' :: (printJson v ++ ('\x7d' :: rest)))
        simp [parseMembers, parseMembersBody, printMembers, printStr, hk, hv]
      | cons kv2 ms =>
        rcases kv2 with ⟨k2, v2⟩
        have h1 := sizeJ_pos v
        have hsz1 : sizeJ v ≤ fuel := by
          simp [sizeM] at hs
          omega
        have hsz2 : sizeM ((k2, v2) :: ms) ≤ fuel := by
          simp [sizeM] at hs ⊢
          omega
        have hv := ihV v (',' :: (printMembers ((k2, v2) :: ms) ++ ('\x7d' :: rest))) hsz1 rfl
        have hm := ihM k2 v2 ms rest hsz2
        have hk := parseStrBody_printStr k (':' :: (printJson v ++
          (',' :: (printMembers ((k2, v2) :: ms) ++ ('\x7d' :: rest)))))
        simp [parseMembers, parseMembersBody, printMembers, printStr, hk, hv, hm]

end PhotoMap.Geo

namespace PhotoMap.Geo

mutual

/-- The fuel a value needs is at most its printed length. -/
theorem sizeJ_le : (j : Json) → sizeJ j ≤ (printJson j).length
  | .null => by
    have h : (printJson Json.null).length = 4 := rfl
    simp only [sizeJ, h]
    omega
  | .bool true => by
    have h : (printJson (Json.bool true)).length = 4 := rfl
    simp only [sizeJ, h]
    omega
  | .bool false => by
    have h : (printJson (Json.bool false)).length = 5 := rfl
    simp only [sizeJ, h]
    omega
  | .num d => by
    rcases printNum_shape d with ⟨c, cs, hpn, _⟩
    simp only [sizeJ, printJson, hpn, List.length_cons]
    omega
  | .str s => by
    simp only [sizeJ, printJson, printStr, List.length_cons, List.length_append]
    omega
  | .arr xs => by
    have h := sizeL_le xs
    simp only [sizeJ, printJson, List.length_cons, List.length_append, List.length_nil]
    omega
  | .obj fs => by
    have h := sizeM_le fs
    simp only [sizeJ, printJson, List.length_cons, List.length_append, List.length_nil]
    omega

/-- The fuel an element list needs is at most its printed length plus one. -/
theorem sizeL_le : (xs : List Json) → sizeL xs ≤ (printElems xs).length + 1
  | [] => by
    simp only [sizeL, printElems, List.length_nil]
    omega
  | [x] => by
    have h := sizeJ_le x
    simp only [sizeL, printElems]
    omega
  | x :: y :: ys => by
    have h1 := sizeJ_le x
    have h2 := sizeL_le (y :: ys)
    simp only [sizeL] at h2
    simp only [sizeL, printElems, List.length_append, List.length_cons]
    omega

/-- The fuel a member list needs is at most its printed length plus one. -/
theorem sizeM_le : (fs : List (String × Json)) → sizeM fs ≤ (printMembers fs).length + 1
  | [] => by
    simp only [sizeM, printMembers, List.length_nil]
    omega
  | [(k, v)] => by
    have h := sizeJ_le v
    simp only [sizeM, printMembers, printStr, List.length_append, List.length_cons]
    omega
  | (k, v) :: m :: ms => by
    have h1 := sizeJ_le v
    have h2 := sizeM_le (m :: ms)
    simp only [sizeM] at h2
    simp only [sizeM, printMembers, printStr, List.length_append, List.length_cons]
    omega

end

/-- Printing then parsing any JSON value is the identity. -/
lemma parseJson_printJson (j : Json) : parseJson (printJson j) = some j := by
  have hfuel : sizeJ j ≤ (printJson j).length + 1 := by
    have := sizeJ_le j
    omega
  have h := (parse_print_aux ((printJson j).length + 1)).1 j [] hfuel rfl
  rw [List.append_nil] at h
  unfold parseJson
  rw [h]

/-- A nullable string property value, as `JSON.stringify` renders it. -/
def optStrJson : Option String → Json
  | some s => .str s
  | none => .null

/-- The JSON object pushed for one feature (`build.mjs` lines 423–435):
key order is insertion order, `coordinates` is `[lon, lat]`. -/
def featureJson (ft : Build1.Feature) : Json :=
  .obj [("type", .str "Feature"),
        ("properties", .obj [
          ("title", .str ft.title),
          ("taken_at", optStrJson ft.taken_at),
          ("source", optStrJson ft.source),
          ("original_page", optStrJson ft.original_page),
          ("thumb", optStrJson ft.thumb),
          ("thumb_external", optStrJson ft.thumb_external),
          ("full_external", optStrJson ft.full_external)]),
        ("geometry", .obj [
          ("type", .str "Point"),
          ("coordinates", .arr [.num ft.lon, .num ft.lat])])]

/-- The written document (`build.mjs` line 442):
`{ type: "FeatureCollection", features }`. -/
def geoJson (fts : List Build1.Feature) : Json :=
  .obj [("type", .str "FeatureCollection"),
        ("features", .arr (fts.map featureJson))]

/-- Object field lookup (first binding wins, as in parsed JSON). -/
def jsonField (k : String) : Json → Option Json
  | .obj fs => (fs.find? (fun p => p.1 == k)).map (fun p => p.2)
  | _ => none

/-- C5: the written output is one object `{ type: "FeatureCollection",
features: [...] }`; every feature is `{ type: "Feature", properties: {...},
geometry: { type: "Point", coordinates: [lon, lat] } }` with longitude
first; and serializing the document and parsing it back yields exactly the
same value, so in particular every parsed feature's `geometry.coordinates`
is `[lon, lat]` in that order. -/
theorem C5_geojson_shape_roundtrip (fts : List Build1.Feature) :
    parseJson (printJson (geoJson fts)) = some (geoJson fts) ∧
    jsonField "type" (geoJson fts) = some (Json.str "FeatureCollection") ∧
    jsonField "features" (geoJson fts) = some (Json.arr (fts.map featureJson)) ∧
    ∀ ft, ft ∈ fts →
      jsonField "type" (featureJson ft) = some (Json.str "Feature") ∧
      (jsonField "geometry" (featureJson ft)).bind (jsonField "type") =
        some (Json.str "Point") ∧
      (jsonField "geometry" (featureJson ft)).bind (jsonField "coordinates") =
        some (Json.arr [Json.num ft.lon, Json.num ft.lat]) := by
  refine ⟨parseJson_printJson (geoJson fts), rfl, rfl, ?_⟩
  intro ft _
  exact ⟨rfl, rfl, rfl⟩

/-- A concrete resolved feature for instantiating `C5_geojson_shape_roundtrip`. -/
def sampleFeature : Build1.Feature :=
  { title := "photo", taken_at := some "2020-01-01", source := some "media_info",
    original_page := none, thumb := some "thumbs/t-abc.jpg", thumb_external := none,
    full_external := none, lon := ⟨25, 0⟩, lat := ⟨45, 0⟩ }

/-- C5 witness: the round trip and the `[lon, lat]` coordinate shape at a
concrete one-feature collection. -/
theorem C5_witness :
    sampleFeature ∈ [sampleFeature] ∧
    parseJson (printJson (geoJson [sampleFeature])) = some (geoJson [sampleFeature]) ∧
    (jsonField "geometry" (featureJson sampleFeature)).bind (jsonField "coordinates") =
      some (Json.arr [Json.num sampleFeature.lon, Json.num sampleFeature.lat]) := by
  have h := C5_geojson_shape_roundtrip [sampleFeature]
  exact ⟨by simp, h.1, (h.2.2.2 sampleFeature (by simp)).2.2⟩

end PhotoMap.Geo
